import Mathlib

/-!
# Verification of the MOTIF language front-end and evaluator

Shallow embedding of `src/motif/parser.py`: the `MOTIFLexer` class, the
`MOTIFParser` class and the `MOTIFInterpreter` class, together with the
helper functions `parse_motif` and `interpret_motif`.

Conventions of the embedding:

* Python strings are Lean `String`s; character classification
  (`isspace`, `isdigit`, `isalpha`, `isalnum`) is modelled with the ASCII
  classifiers of `Char` (all inputs appearing in the theorems are ASCII).
* Python `int`/`float` literals are modelled as `Int` and as exact decimal
  numbers (an integer mantissa together with the count of fractional
  digits).  The interpreter performs no floating-point arithmetic, so no
  claim depends on IEEE rounding.
* Python exceptions are modelled with `Except`: `SyntaxError` in the
  parser, `RuntimeError` in the interpreter.
* The parser's recursive-descent loops and the interpreter's
  `while-emotional-state` loop are given an explicit fuel parameter;
  exhausting the fuel is a distinguished outcome (`outOfFuel`) that the
  Python source cannot produce, so every theorem about the source either
  quantifies over sufficient fuel or proves fuel-sufficiency.
* `print` calls in the interpreter are side effects on stdout only and are
  not modelled; no claim mentions them.
-/

namespace Motif

/-- `TokenType` enum of the Python source. -/
inductive TokenType where
  | lparen
  | rparen
  | symbolT
  | stringT
  | numberT
  | commentT
  | eofT
deriving DecidableEq, Repr

/-- `Token` dataclass: type, raw text, and the lexer's line/column counters
at the moment `_add_token` was called. -/
structure Token where
  type : TokenType
  value : String
  line : Nat
  column : Nat
deriving DecidableEq, Repr

/-! ## Lexer (`MOTIFLexer`)

The lexer's `tokenize` loop is modelled over the remaining character list.
Each scanning helper (`_tokenize_string` …) returns the characters it
consumed together with the rest of the input; the column counter advances
by one per consumed character (`_advance` increments `column`
unconditionally; only `_skip_whitespace` handles newlines), and multi-char
tokens are recorded with the line/column *after* scanning, exactly as in
the source, where `_add_token` runs after the scanning loop.
-/

/-- Body of `_tokenize_string` after the opening quote: scan until an
unescaped closing quote or end of input; the closing quote, when present,
is consumed and included (Python slices `text[start_pos:self.position]`
after advancing past it). -/
def strBody : List Char → List Char × List Char
  | [] => ([], [])
  | '"' :: rest => (['"'], rest)
  | '\\' :: [] => (['\\'], [])
  | '\\' :: c :: rest =>
      let (a, b) := strBody rest
      ('\\' :: c :: a, b)
  | c :: rest =>
      let (a, b) := strBody rest
      (c :: a, b)

/-- Body of `_tokenize_comment`: consume to end of line, exclusive. -/
def commentBody : List Char → List Char × List Char
  | [] => ([], [])
  | '\n' :: rest => ([], '\n' :: rest)
  | c :: rest =>
      if c = '\n' then ([], c :: rest)
      else
        let (a, b) := commentBody rest
        (c :: a, b)

/-- Digit-and-dot run of `_tokenize_number` (after an optional minus). -/
def numBody : List Char → List Char × List Char
  | [] => ([], [])
  | c :: rest =>
      if c.isDigit ∨ c = '.' then
        let (a, b) := numBody rest
        (c :: a, b)
      else ([], c :: rest)

/-- Alphanumeric/`-`/`_` run of `_tokenize_symbol`. -/
def symBody : List Char → List Char × List Char
  | [] => ([], [])
  | c :: rest =>
      if c.isAlphanum ∨ c = '-' ∨ c = '_' then
        let (a, b) := symBody rest
        (c :: a, b)
      else ([], c :: rest)

theorem strBody_length (cs : List Char) : (strBody cs).2.length ≤ cs.length := by
  induction cs using strBody.induct <;> simp_all [strBody] <;> omega

theorem commentBody_length (cs : List Char) : (commentBody cs).2.length ≤ cs.length := by
  induction cs using commentBody.induct <;> simp_all [commentBody] <;> omega

theorem numBody_length (cs : List Char) : (numBody cs).2.length ≤ cs.length := by
  induction cs using numBody.induct <;> simp_all [numBody] <;> omega

theorem symBody_length (cs : List Char) : (symBody cs).2.length ≤ cs.length := by
  induction cs using symBody.induct <;> simp_all [symBody] <;> omega

/-- The main `tokenize` loop, fused with `_skip_whitespace`.  Returns
`none` when the fuel runs out (the Python loop always terminates because
every branch advances the position; fuel `length + 1` is proved
sufficient below).  On end of input the single EOF token is appended with
the current line/column. -/
def tokenizeLoop : Nat → List Char → Nat → Nat → Option (List Token)
  | 0, _, _, _ => none
  | _ + 1, [], line, col => some [⟨.eofT, "", line, col⟩]
  | fuel + 1, c :: rest, line, col =>
      if c.isWhitespace then
        if c = '\n' then tokenizeLoop fuel rest (line + 1) 1
        else tokenizeLoop fuel rest line (col + 1)
      else if c = '(' then
        (tokenizeLoop fuel rest line (col + 1)).map
          (⟨.lparen, "(", line, col⟩ :: ·)
      else if c = ')' then
        (tokenizeLoop fuel rest line (col + 1)).map
          (⟨.rparen, ")", line, col⟩ :: ·)
      else if c = '"' then
        let (body, rest') := strBody rest
        let consumed := '"' :: body
        let col' := col + consumed.length
        (tokenizeLoop fuel rest' line col').map
          (⟨.stringT, String.mk consumed, line, col'⟩ :: ·)
      else if c = ';' then
        let (body, rest') := commentBody rest
        let consumed := c :: body
        let col' := col + consumed.length
        (tokenizeLoop fuel rest' line col').map
          (⟨.commentT, String.mk consumed, line, col'⟩ :: ·)
      else if c.isDigit ∨ c = '-' then
        let (body, rest') := numBody rest
        let consumed := c :: body
        let col' := col + consumed.length
        (tokenizeLoop fuel rest' line col').map
          (⟨.numberT, String.mk consumed, line, col'⟩ :: ·)
      else if c.isAlpha ∨ c = '-' ∨ c = '_' then
        let (body, rest') := symBody rest
        let consumed := c :: body
        let col' := col + consumed.length
        (tokenizeLoop fuel rest' line col').map
          (⟨.symbolT, String.mk consumed, line, col'⟩ :: ·)
      else
        tokenizeLoop fuel rest line (col + 1)

/-- `MOTIFLexer(text).tokenize()`; fuel `length + 1` is proved sufficient
in `tokenizeLoop_total`. -/
def tokenize (text : String) : List Token :=
  (tokenizeLoop (text.toList.length + 1) text.toList 1 1).getD []

/-! ## Runtime values

Python values flowing through the parser and interpreter: parse trees are
plain Python lists / `str` / `int` / `float` (symbols and string literals
are both plain `str` after parsing), and the interpreter additionally
produces `bool`, `None`, result `dict`s and the `MOTIFAST` dataclass
instances.  Python `dict`s are modelled as insertion-ordered association
lists; key equality is structural (`==` on the values that actually occur
as keys here: strings, numbers, lists of those), the numeric
cross-type equality `1 == 1.0` of Python is not modelled and no claim
exercises it. -/

inductive Value where
  | str (s : String)
  | intV (n : Int)
  /-- exact decimal float: `mant / 10 ^ dec` -/
  | floatV (mant : Int) (dec : Nat)
  | boolV (b : Bool)
  | noneV
  | listV (elems : List Value)
  | dictV (entries : List (Value × Value))
  | archetypeV (nm : Value) (props : List (Value × Value))
  | imageV (nm : Value) (sensory : List (Value × Value))
  | emotionV (nm : Value) (props : List (Value × Value))
  | metaphorV (nm source target : Value) (props : List (Value × Value))
  | motifV (nm : Value) (comps : List (Value × Value))
  | leitmotifV (nm : Value) (motifNames : List Value) (props : List (Value × Value))
  | compositionV (nm : Value) (struct : List (Value × Value))

mutual

/-- Structural equality on values (Python `==` restricted to the value
shapes that occur as dict keys / comparands in this interpreter). -/
def beqValue : Value → Value → Bool
  | .str a, .str b => a = b
  | .intV a, .intV b => a = b
  | .floatV m d, .floatV m' d' => m = m' ∧ d = d'
  | .boolV a, .boolV b => a = b
  | .noneV, .noneV => true
  | .listV xs, .listV ys => beqValueList xs ys
  | .dictV xs, .dictV ys => beqValuePairs xs ys
  | .archetypeV n p, .archetypeV n' p' => beqValue n n' && beqValuePairs p p'
  | .imageV n p, .imageV n' p' => beqValue n n' && beqValuePairs p p'
  | .emotionV n p, .emotionV n' p' => beqValue n n' && beqValuePairs p p'
  | .metaphorV n s t p, .metaphorV n' s' t' p' =>
      beqValue n n' && beqValue s s' && beqValue t t' && beqValuePairs p p'
  | .motifV n p, .motifV n' p' => beqValue n n' && beqValuePairs p p'
  | .leitmotifV n ms p, .leitmotifV n' ms' p' =>
      beqValue n n' && beqValueList ms ms' && beqValuePairs p p'
  | .compositionV n p, .compositionV n' p' => beqValue n n' && beqValuePairs p p'
  | _, _ => false

def beqValueList : List Value → List Value → Bool
  | [], [] => true
  | x :: xs, y :: ys => beqValue x y && beqValueList xs ys
  | _, _ => false

def beqValuePairs : List (Value × Value) → List (Value × Value) → Bool
  | [], [] => true
  | (k, v) :: xs, (k', v') :: ys => beqValue k k' && beqValue v v' && beqValuePairs xs ys
  | _, _ => false

end

mutual

theorem beqValue_refl : ∀ (v : Value), beqValue v v = true
  | .str _ => decide_eq_true rfl
  | .intV _ => decide_eq_true rfl
  | .floatV _ _ => decide_eq_true ⟨rfl, rfl⟩
  | .boolV _ => decide_eq_true rfl
  | .noneV => rfl
  | .listV xs => beqValueList_refl xs
  | .dictV xs => beqValuePairs_refl xs
  | .archetypeV n p => by
      change (beqValue n n && beqValuePairs p p) = true
      rw [beqValue_refl n, beqValuePairs_refl p]; rfl
  | .imageV n p => by
      change (beqValue n n && beqValuePairs p p) = true
      rw [beqValue_refl n, beqValuePairs_refl p]; rfl
  | .emotionV n p => by
      change (beqValue n n && beqValuePairs p p) = true
      rw [beqValue_refl n, beqValuePairs_refl p]; rfl
  | .metaphorV n s t p => by
      change (((beqValue n n && beqValue s s) && beqValue t t) && beqValuePairs p p) = true
      rw [beqValue_refl n, beqValue_refl s, beqValue_refl t, beqValuePairs_refl p]; rfl
  | .motifV n p => by
      change (beqValue n n && beqValuePairs p p) = true
      rw [beqValue_refl n, beqValuePairs_refl p]; rfl
  | .leitmotifV n ms p => by
      change ((beqValue n n && beqValueList ms ms) && beqValuePairs p p) = true
      rw [beqValue_refl n, beqValueList_refl ms, beqValuePairs_refl p]; rfl
  | .compositionV n p => by
      change (beqValue n n && beqValuePairs p p) = true
      rw [beqValue_refl n, beqValuePairs_refl p]; rfl

theorem beqValueList_refl : ∀ (xs : List Value), beqValueList xs xs = true
  | [] => rfl
  | x :: xs => by
      change (beqValue x x && beqValueList xs xs) = true
      rw [beqValue_refl x, beqValueList_refl xs]; rfl

theorem beqValuePairs_refl : ∀ (xs : List (Value × Value)), beqValuePairs xs xs = true
  | [] => rfl
  | (k, v) :: xs => by
      change ((beqValue k k && beqValue v v) && beqValuePairs xs xs) = true
      rw [beqValue_refl k, beqValue_refl v, beqValuePairs_refl xs]; rfl

end

/-! ### Python `dict` operations

Insertion-ordered association lists with unique keys: lookup returns the
first (only) matching entry; update replaces the value in place keeping
the original key object and position, insertion appends. -/

/-- `d[k]` / `k in d`. -/
def dictGet (d : List (Value × Value)) (k : Value) : Option Value :=
  match d with
  | [] => none
  | (k', v) :: rest => if beqValue k' k then some v else dictGet rest k

/-- `d[k] = v`. -/
def dictSet (d : List (Value × Value)) (k v : Value) : List (Value × Value) :=
  match d with
  | [] => [(k, v)]
  | (k', v') :: rest =>
      if beqValue k' k then (k', v) :: rest else (k', v') :: dictSet rest k v

theorem dictGet_dictSet (d : List (Value × Value)) (k v : Value) :
    dictGet (dictSet d k v) k = some v := by
  induction d with
  | nil => simp [dictGet, dictSet, beqValue_refl]
  | cons h t ih =>
      obtain ⟨k', v'⟩ := h
      by_cases hk : beqValue k' k = true <;> simp [dictGet, dictSet, hk, ih]

/-! ### Python `str()` / `repr()` on the values reachable from parse
output (strings, numbers, nested lists).  For dicts and dataclass
instances — which can never occur inside parse output, the only place
these functions are applied — a placeholder is returned. -/

/-- `str(float)` for the exact decimal `mant / 10 ^ dec` (`d = 0` prints
a trailing `.0` exactly as Python does for a whole float). -/
def floatRepr (m : Int) (d : Nat) : String :=
  if d = 0 then toString m ++ ".0"
  else
    let sign := if m < 0 then "-" else ""
    let s := toString m.natAbs
    let s := if s.length ≤ d then String.mk (List.replicate (d + 1 - s.length) '0') ++ s else s
    sign ++ (s.toList.take (s.length - d)).asString ++ "." ++ (s.toList.drop (s.length - d)).asString

mutual

/-- Python `repr(x)`. -/
def pyRepr : Value → String
  | .str s => "'" ++ s ++ "'"
  | .intV n => toString n
  | .floatV m d => floatRepr m d
  | .boolV b => cond b "True" "False"
  | .noneV => "None"
  | .listV xs => "[" ++ pyReprList xs ++ "]"
  | .dictV _ => "<dict>"
  | .archetypeV _ _ => "<DefineArchetype>"
  | .imageV _ _ => "<DefineImage>"
  | .emotionV _ _ => "<DefineEmotion>"
  | .metaphorV _ _ _ _ => "<DefineMetaphor>"
  | .motifV _ _ => "<DefineMotif>"
  | .leitmotifV _ _ _ => "<DefineLeitmotif>"
  | .compositionV _ _ => "<DefineComposition>"

def pyReprList : List Value → String
  | [] => ""
  | [x] => pyRepr x
  | x :: y :: rest => pyRepr x ++ ", " ++ pyReprList (y :: rest)

end

/-- Python `str(x)` (`str` and `repr` agree on every non-string value
occurring here). -/
def pyStr : Value → String
  | .str s => s
  | v => pyRepr v

/-- Python truthiness of a value (dataclass instances are always truthy). -/
def pyTruthy : Value → Bool
  | .str s => ¬ s = ""
  | .intV n => ¬ n = 0
  | .floatV m _ => ¬ m = 0
  | .boolV b => b
  | .noneV => false
  | .listV xs => ¬ xs.isEmpty
  | .dictV d => ¬ d.isEmpty
  | _ => true

/-- Substring occurrence on char lists: `needle` occurs contiguously. -/
def subOf (needle : List Char) : List Char → Bool
  | [] => needle.isEmpty
  | c :: rest => needle.isPrefixOf (c :: rest) || subOf needle rest

/-- Python `needle in hay` on strings. -/
def strContains (hay needle : String) : Bool :=
  subOf needle.toList hay.toList

/-- Python `s.lower()` (ASCII). -/
def pyLower (s : String) : String :=
  String.mk (s.toList.map Char.toLower)

/-! ## Parser (`MOTIFParser`) -/

/-- Parser-stage failure: a raised `SyntaxError` carrying its message, or
fuel exhaustion (impossible for the fuel used by `parse`, and excluded by
hypothesis in the general theorems). -/
inductive PErr where
  | syntaxErr (msg : String)
  | outOfFuel
deriving DecidableEq, Repr

/-- `_peek`: the token at the current position, or `tokens[-1]` once the
position has run past the end.  (For an empty token list Python would
return `None` and crash on attribute access; `tokenize` never returns an
empty list, and every theorem below works on lexer output.) -/
def peekTok (tokens : List Token) (pos : Nat) : Token :=
  if h : pos < tokens.length then tokens.get ⟨pos, h⟩
  else tokens.getLastD ⟨.eofT, "", 0, 0⟩

/-- `_is_at_end`: position past the end, or current token is EOF. -/
def isAtEnd (tokens : List Token) (pos : Nat) : Bool :=
  if pos < tokens.length then (peekTok tokens pos).type = .eofT else true

/-- `_check`: current token has the expected type (false at end). -/
def checkTok (tokens : List Token) (pos : Nat) (ty : TokenType) : Bool :=
  !isAtEnd tokens pos && (peekTok tokens pos).type = ty

/-- `_consume`: on success returns the consumed token and the advanced
position (`_advance` increments because `_check` implies not-at-end);
otherwise raises `SyntaxError` citing the current token's line/column. -/
def consume (tokens : List Token) (pos : Nat) (ty : TokenType) (msg : String) :
    Except PErr (Token × Nat) :=
  if checkTok tokens pos ty then
    .ok (peekTok tokens pos, pos + 1)
  else
    let t := peekTok tokens pos
    .error (.syntaxErr (msg ++ " at line " ++ toString t.line ++ ", column " ++ toString t.column))

/-- Digits to their decimal value. -/
def digitsToNat (cs : List Char) : Nat :=
  cs.foldl (fun a c => a * 10 + (c.toNat - '0'.toNat)) 0

/-- Python `int(value)` restricted to the lexemes the lexer can produce
(optional leading `-`, then digits/dots): defined iff the rest is a
non-empty digit run. -/
def pyIntParse (s : String) : Option Int :=
  match s.toList with
  | '-' :: rest =>
      if rest ≠ [] ∧ rest.all Char.isDigit then some (-(digitsToNat rest : Int)) else none
  | cs => if cs ≠ [] ∧ cs.all Char.isDigit then some (digitsToNat cs : Int) else none

/-- Python `float(value)` restricted to the lexer's lexemes: defined iff
there is at least one digit and at most one dot; the result is the exact
decimal (mantissa, fractional-digit count). -/
def pyFloatParse (s : String) : Option (Int × Nat) :=
  let (neg, cs) :=
    match s.toList with
    | '-' :: rest => (true, rest)
    | cs => (false, cs)
  if cs.any Char.isDigit ∧ cs.count '.' ≤ 1 ∧ cs.all (fun c => c.isDigit ∨ c = '.') then
    let intPart := cs.takeWhile (· ≠ '.')
    let fracPart := (cs.dropWhile (· ≠ '.')).drop 1
    let m : Nat := digitsToNat (intPart ++ fracPart)
    some (if neg then -(m : Int) else (m : Int), fracPart.length)
  else none

/-- `_parse_string`: consume one STRING token, strip the quotes. -/
def parseStringTok (tokens : List Token) (pos : Nat) : Except PErr (Value × Nat) :=
  match consume tokens pos .stringT "Expected string" with
  | .error e => .error e
  | .ok (tok, p) => .ok (.str (String.mk (tok.value.toList.drop 1).dropLast), p)

/-- `_parse_number`: consume one NUMBER token; `.` in the lexeme selects
`float`, else `int`; a failed conversion raises `Invalid number`. -/
def parseNumberTok (tokens : List Token) (pos : Nat) : Except PErr (Value × Nat) :=
  match consume tokens pos .numberT "Expected number" with
  | .error e => .error e
  | .ok (tok, p) =>
      if tok.value.toList.contains '.' then
        match pyFloatParse tok.value with
        | some (m, d) => .ok (.floatV m d, p)
        | none => .error (.syntaxErr ("Invalid number: " ++ tok.value))
      else
        match pyIntParse tok.value with
        | some n => .ok (.intV n, p)
        | none => .error (.syntaxErr ("Invalid number: " ++ tok.value))

/-- `_parse_symbol`: consume one SYMBOL token. -/
def parseSymbolTok (tokens : List Token) (pos : Nat) : Except PErr (Value × Nat) :=
  match consume tokens pos .symbolT "Expected symbol" with
  | .error e => .error e
  | .ok (tok, p) => .ok (.str tok.value, p)

mutual

/-- `_parse_expression`: dispatch on the current token type; the LPAREN
case is `_parse_list` inlined (consume `(`, loop, consume `)`). -/
def parseExpression : Nat → List Token → Nat → Except PErr (Value × Nat)
  | 0, _, _ => .error .outOfFuel
  | fuel + 1, tokens, pos =>
      let t := peekTok tokens pos
      if t.type = .lparen then
        match consume tokens pos .lparen "Expected '('" with
        | .error e => .error e
        | .ok (_, pos₁) =>
            match parseListLoop fuel tokens pos₁ [] with
            | .error e => .error e
            | .ok (elems, pos₂) =>
                match consume tokens pos₂ .rparen "Expected ')'" with
                | .error e => .error e
                | .ok (_, pos₃) => .ok (.listV elems, pos₃)
      else if t.type = .stringT then parseStringTok tokens pos
      else if t.type = .numberT then parseNumberTok tokens pos
      else if t.type = .symbolT then parseSymbolTok tokens pos
      else .error (.syntaxErr ("Unexpected token: " ++ t.value))

/-- The element loop of `_parse_list`: while the current token is neither
`)` nor the end, skip comments and parse expressions. -/
def parseListLoop : Nat → List Token → Nat → List Value → Except PErr (List Value × Nat)
  | 0, _, _, _ => .error .outOfFuel
  | fuel + 1, tokens, pos, acc =>
      if ¬ checkTok tokens pos .rparen ∧ ¬ isAtEnd tokens pos then
        if (peekTok tokens pos).type = .commentT then
          parseListLoop fuel tokens (pos + 1) acc
        else
          match parseExpression fuel tokens pos with
          | .error e => .error e
          | .ok (v, pos') => parseListLoop fuel tokens pos' (acc ++ [v])
      else .ok (acc, pos)

end

/-- The top-level loop of `parse`: until the end, skip comments and
collect expressions. -/
def parseProgramLoop : Nat → List Token → Nat → List Value → Except PErr (List Value)
  | 0, _, _, _ => .error .outOfFuel
  | fuel + 1, tokens, pos, acc =>
      if ¬ isAtEnd tokens pos then
        if (peekTok tokens pos).type = .commentT then
          parseProgramLoop fuel tokens (pos + 1) acc
        else
          match parseExpression fuel tokens pos with
          | .error e => .error e
          | .ok (v, pos') => parseProgramLoop fuel tokens pos' (acc ++ [v])
      else .ok acc

/-- Fuel that is ample for `parse`: every fuel tick either consumes a
token or closes a level. -/
def parseFuel (tokens : List Token) : Nat :=
  2 * tokens.length + 3

/-- `MOTIFParser(tokens).parse()`. -/
def parse (tokens : List Token) : Except PErr (List Value) :=
  parseProgramLoop (parseFuel tokens) tokens 0 []

/-- `parse_motif(code)`. -/
def parseMotif (code : String) : Except PErr (List Value) :=
  parse (tokenize code)


/-! ## Interpreter (`MOTIFInterpreter`) -/

/-- Python hashability of the values occurring here: lists, dicts and the
(`eq=True`, non-frozen) dataclass instances are unhashable — using one as
a dict key or in a `x in d` test raises `TypeError`. -/
def hashableKey : Value → Bool
  | .str _ | .intV _ | .floatV _ _ | .boolV _ | .noneV => true
  | _ => false

/-- Evaluation-stage failure: a raised `RuntimeError`, a host-level
Python exception (`TypeError` on an unhashable dict key,
`AttributeError` on `.lower()` of a non-string — reachable only from
degenerate programs none of the claims touch), or fuel exhaustion of the
`while-emotional-state` loop. -/
inductive RErr where
  | runtimeError (msg : String)
  | hostError (msg : String)
  | outOfFuel
deriving DecidableEq, Repr

/-- The interpreter instance's entity tables (`self.symbols` …
`self.context`), each a Python dict. -/
structure Store where
  symbols : List (Value × Value)
  archetypes : List (Value × Value)
  emotions : List (Value × Value)
  metaphors : List (Value × Value)
  motifs : List (Value × Value)
  leitmotifs : List (Value × Value)
  compositions : List (Value × Value)
  context : List (Value × Value)

/-- The freshly constructed `MOTIFInterpreter()`. -/
def emptyStore : Store := ⟨[], [], [], [], [], [], [], []⟩

/-- `_evaluate_symbol`: probe the seven mappings in fixed order; an
unresolved symbol evaluates to itself. -/
def evaluateSymbol (st : Store) (s : String) : Value :=
  match dictGet st.symbols (.str s) with
  | some v => v
  | none =>
  match dictGet st.archetypes (.str s) with
  | some v => v
  | none =>
  match dictGet st.emotions (.str s) with
  | some v => v
  | none =>
  match dictGet st.metaphors (.str s) with
  | some v => v
  | none =>
  match dictGet st.motifs (.str s) with
  | some v => v
  | none =>
  match dictGet st.leitmotifs (.str s) with
  | some v => v
  | none =>
  match dictGet st.compositions (.str s) with
  | some v => v
  | none => .str s

/-! ### Pairwise property parsing

Each `define-*` handler walks `args[1:]` with stride 2, skipping a
trailing unpaired element (`if i + 1 < len(args)`); they differ in how a
key slot is normalised. -/

/-- `_define_archetype` / `_define_motif` style: a list key is converted
with `str()`; every other key is stored as-is (a dict key would raise). -/
def pairsStrKeysE (acc : List (Value × Value)) : List Value → Except RErr (List (Value × Value))
  | k :: v :: rest =>
      let k' := match k with
        | .listV l => Value.str (pyStr (.listV l))
        | other => other
      if hashableKey k' then pairsStrKeysE (dictSet acc k' v) rest
      else .error (.hostError "TypeError: unhashable type")
  | _ => .ok acc

/-- `_define_image` style: keys stored without any conversion. -/
def pairsRawE (acc : List (Value × Value)) : List Value → Except RErr (List (Value × Value))
  | k :: v :: rest =>
      if hashableKey k then pairsRawE (dictSet acc k v) rest
      else .error (.hostError "TypeError: unhashable type")
  | _ => .ok acc

/-- `_define_emotion` / `_define_metaphor` / `_define_context` style: a
non-empty list key contributes its head as the key; a string key is used
directly; any other key shape is silently skipped. -/
def pairsHeadKeysE (acc : List (Value × Value)) : List Value → Except RErr (List (Value × Value))
  | k :: v :: rest =>
      match k with
      | .listV (k0 :: _) =>
          if hashableKey k0 then pairsHeadKeysE (dictSet acc k0 v) rest
          else .error (.hostError "TypeError: unhashable type")
      | .listV [] => pairsHeadKeysE acc rest
      | .str s => pairsHeadKeysE (dictSet acc (.str s) v) rest
      | _ => pairsHeadKeysE acc rest
  | _ => .ok acc

/-- `_define_leitmotif`'s loop: accumulates the motif-name list and the
property dict; a list key `(motifs m₁ m₂ …)` replaces the motif list by
its tail, a string key `motifs` takes the value slot (wrapped in a list
if not one). -/
def leitPairsE (ms : List Value) (props : List (Value × Value)) :
    List Value → Except RErr (List Value × List (Value × Value))
  | k :: v :: rest =>
      match k with
      | .listV (k0 :: ktail) =>
          if beqValue k0 (.str "motifs") then leitPairsE ktail props rest
          else if hashableKey k0 then leitPairsE ms (dictSet props k0 v) rest
          else .error (.hostError "TypeError: unhashable type")
      | .listV [] => leitPairsE ms props rest
      | .str s =>
          if s = "motifs" then
            leitPairsE (match v with | .listV l => l | other => [other]) props rest
          else leitPairsE ms (dictSet props (.str s) v) rest
      | _ => leitPairsE ms props rest
  | _ => .ok (ms, props)

/-- `_define_composition`'s loop: a list key of length ≥ 2 supplies both
key and value from itself (the value slot is not separately consumed); a
singleton list key uses the value slot; a string key is used directly. -/
def compPairsE (struct : List (Value × Value)) :
    List Value → Except RErr (List (Value × Value))
  | k :: v :: rest =>
      match k with
      | .listV (k0 :: k1 :: _) =>
          if hashableKey k0 then compPairsE (dictSet struct k0 k1) rest
          else .error (.hostError "TypeError: unhashable type")
      | .listV [k0] =>
          if hashableKey k0 then compPairsE (dictSet struct k0 v) rest
          else .error (.hostError "TypeError: unhashable type")
      | .listV [] => compPairsE struct rest
      | .str s => compPairsE (dictSet struct (.str s) v) rest
      | _ => compPairsE struct rest
  | _ => .ok struct

/-! ### Definition handlers -/

def defineArchetype (args : List Value) (st : Store) : Except RErr (Value × Store) :=
  match args with
  | [] => .error (.runtimeError "define-archetype requires at least a name")
  | name :: rest =>
      match pairsStrKeysE [] rest with
      | .error e => .error e
      | .ok props =>
          if hashableKey name then
            let a := Value.archetypeV name props
            .ok (a, { st with archetypes := dictSet st.archetypes name a })
          else .error (.hostError "TypeError: unhashable type")

/-- `_define_image` registers the image into `self.symbols`. -/
def defineImage (args : List Value) (st : Store) : Except RErr (Value × Store) :=
  match args with
  | [] => .error (.runtimeError "define-image requires at least a name")
  | name :: rest =>
      match pairsRawE [] rest with
      | .error e => .error e
      | .ok sensory =>
          if hashableKey name then
            let img := Value.imageV name sensory
            .ok (img, { st with symbols := dictSet st.symbols name img })
          else .error (.hostError "TypeError: unhashable type")

def defineEmotion (args : List Value) (st : Store) : Except RErr (Value × Store) :=
  match args with
  | [] => .error (.runtimeError "define-emotion requires at least a name")
  | name :: rest =>
      match pairsHeadKeysE [] rest with
      | .error e => .error e
      | .ok props =>
          if hashableKey name then
            let e := Value.emotionV name props
            .ok (e, { st with emotions := dictSet st.emotions name e })
          else .error (.hostError "TypeError: unhashable type")

def defineMetaphor (args : List Value) (st : Store) : Except RErr (Value × Store) :=
  match args with
  | name :: source :: target :: rest =>
      match pairsHeadKeysE [] rest with
      | .error e => .error e
      | .ok props =>
          if hashableKey name then
            let m := Value.metaphorV name source target props
            .ok (m, { st with metaphors := dictSet st.metaphors name m })
          else .error (.hostError "TypeError: unhashable type")
  | _ => .error (.runtimeError "define-metaphor requires name, source, and target")

def defineMotif (args : List Value) (st : Store) : Except RErr (Value × Store) :=
  match args with
  | [] => .error (.runtimeError "define-motif requires at least a name")
  | name :: rest =>
      match pairsStrKeysE [] rest with
      | .error e => .error e
      | .ok comps =>
          if hashableKey name then
            let m := Value.motifV name comps
            .ok (m, { st with motifs := dictSet st.motifs name m })
          else .error (.hostError "TypeError: unhashable type")

def defineLeitmotif (args : List Value) (st : Store) : Except RErr (Value × Store) :=
  match args with
  | [] => .error (.runtimeError "define-leitmotif requires at least a name")
  | name :: rest =>
      match leitPairsE [] [] rest with
      | .error e => .error e
      | .ok (ms, props) =>
          if hashableKey name then
            let l := Value.leitmotifV name ms props
            .ok (l, { st with leitmotifs := dictSet st.leitmotifs name l })
          else .error (.hostError "TypeError: unhashable type")

def defineComposition (args : List Value) (st : Store) : Except RErr (Value × Store) :=
  match args with
  | [] => .error (.runtimeError "define-composition requires at least a name")
  | name :: rest =>
      match compPairsE [] rest with
      | .error e => .error e
      | .ok struct =>
          if hashableKey name then
            let c := Value.compositionV name struct
            .ok (c, { st with compositions := dictSet st.compositions name c })
          else .error (.hostError "TypeError: unhashable type")

/-- `_define_context` builds a plain dict record and stores it in
`self.context`. -/
def defineContext (args : List Value) (st : Store) : Except RErr (Value × Store) :=
  match args with
  | [] => .error (.runtimeError "define-context requires at least a name")
  | name :: rest =>
      match pairsHeadKeysE [] rest with
      | .error e => .error e
      | .ok props =>
          if hashableKey name then
            let c := Value.dictV [(.str "name", name), (.str "properties", .dictV props)]
            .ok (c, { st with context := dictSet st.context name c })
          else .error (.hostError "TypeError: unhashable type")

/-- `_define_seed_words` stores a fixed word list under the name in
`self.symbols`. -/
def defineSeedWords (args : List Value) (st : Store) : Except RErr (Value × Store) :=
  match args with
  | [] => .error (.runtimeError "define-seed-words requires at least a name")
  | name :: _ =>
      let seedWords := Value.listV [.str "night", .str "silence", .str "distance", .str "memory"]
      if hashableKey name then
        .ok (.dictV [(.str "name", name), (.str "words", seedWords)],
             { st with symbols := dictSet st.symbols name seedWords })
      else .error (.hostError "TypeError: unhashable type")

/-! ### Lyric synthesis (`_motif_to_lyrics`, `_generate_suno_text`) -/

/-- The string forms a component value contributes as tag material. -/
def valStrs (v : Value) : List String :=
  match v with
  | .listV xs => xs.map pyStr
  | _ => [pyStr v]

/-- Scan the components dict: keys containing `archetype` feed the first
list, otherwise keys containing `metaphor` feed the second. -/
def extractAM : List (Value × Value) → List String × List String
  | [] => ([], [])
  | (k, v) :: rest =>
      let (as_, ms_) := extractAM rest
      if strContains (pyLower (pyStr k)) "archetype" then (valStrs v ++ as_, ms_)
      else if strContains (pyLower (pyStr k)) "metaphor" then (as_, valStrs v ++ ms_)
      else (as_, ms_)

/-- Python `s.replace(c, r)` for a single-character needle. -/
def replaceChar (n : Char) (repl : List Char) : List Char → List Char
  | [] => []
  | c :: rest => (if c = n then repl else [c]) ++ replaceChar n repl rest

/-- Drop leading whitespace. -/
def dropLeadWs : List Char → List Char
  | [] => []
  | c :: rest => if c.isWhitespace then dropLeadWs rest else c :: rest

/-- Python `s.strip()`. -/
def pyTrimList (cs : List Char) : List Char :=
  ((dropLeadWs (dropLeadWs cs).reverse)).reverse

/-- Python `s.split()` (split on whitespace runs, no empty words),
accumulating the current word reversed. -/
def splitWsAux (cur : List Char) : List Char → List String
  | [] => if cur.isEmpty then [] else [String.mk cur.reverse]
  | c :: rest =>
      if c.isWhitespace then
        if cur.isEmpty then splitWsAux [] rest
        else String.mk cur.reverse :: splitWsAux [] rest
      else splitWsAux (c :: cur) rest

/-- Strip quote/bracket punctuation, turn commas into spaces, trim, and
split into words (`.replace(…)` chain, `.strip()`, `.split()`). -/
def cleanOne (s : String) : List String :=
  splitWsAux []
    (pyTrimList (replaceChar ',' [' ']
      (replaceChar ']' [] (replaceChar '[' [] (replaceChar '\'' [] s.toList)))))

/-- Deduplicating, order-preserving accumulation of non-empty words. -/
def addWords (acc : List String) : List String → List String
  | [] => acc
  | w :: ws => addWords (if w ≠ "" ∧ w ∉ acc then acc ++ [w] else acc) ws

/-- The deduplicated word list extracted from raw tag strings. -/
def cleanTags (raw : List String) : List String :=
  raw.foldl (fun acc s => addWords acc (cleanOne s)) []

/-- The generic fallback stanza built from up to two archetype tags, or
the fixed default when no tag exists. -/
def fallbackLines (ca : List String) : List String :=
  match ca.take 2 with
  | [] => ["In the silence of the night", "I search for what was right",
           "Love and loss, hand in hand", "Walking through this endless land"]
  | [a] => ["In the " ++ a ++ " of my mind", "I find peace of a different kind"]
  | a :: b :: _ => ["In the " ++ a ++ " of my mind", "I find peace of a different kind",
                    "The " ++ b ++ " calls to me", "Across the endless sea"]

/-- `_motif_to_lyrics`: tag-template matching, truncated to four lines. -/
def motifToLyrics (m : Value) : String :=
  match m with
  | .motifV _ comps =>
      let am := extractAM comps
      let ca := cleanTags am.1
      let cm := cleanTags am.2
      let lines : List String :=
        (if "heart" ∈ ca ∧ "ocean" ∈ ca then
          ["My heart is like an ocean", "Deep and vast, in endless motion",
           "Waves of love that never cease", "Bringing me both pain and peace"] else []) ++
        (if "photograph" ∈ ca ∧ "moonlight" ∈ ca then
          ["In moonlight, I see your photograph", "Fading slowly, but I still laugh",
           "At the memories we made together", "That will last forever and ever"] else []) ++
        (if "autumn" ∈ ca then
          ["Like autumn leaves, our love did fall", "But memories remain, through it all",
           "Golden moments in my mind", "A love that time could never bind"] else []) ++
        (if "goodbye" ∈ ca then
          ["Goodbye, my love, goodbye", "Though we must part, I'll never die",
           "In the garden of my heart", "Your memory will always start"] else []) ++
        (if "heart-ocean" ∈ cm then
          ["Your love was deep as the endless sea", "Now I'm drowning in what used to be",
           "Waves of sorrow crash on shore", "But I'll love you forevermore"] else []) ++
        (if "fading-photograph" ∈ cm then
          ["Time fades the colors of our past", "But the love we shared will always last",
           "In sepia tones and silver light", "Our love still shines so bright"] else []) ++
        (if "autumn-love" ∈ cm then
          ["Like autumn leaves that gently fall", "Our love changed, that's all",
           "But beauty lies in every season", "And love needs no special reason"] else []) ++
        (if "moonlight-promises" ∈ cm then
          ["Under moonlight we made our vows", "But time has broken all our bows",
           "Still the moon shines just the same", "And whispers your sweet name"] else [])
      let lines := if lines.isEmpty then fallbackLines ca else lines
      String.intercalate "\n" (lines.take 4)
  | _ => "No motif content found"

/-- The verse/chorus/bridge bucket loop of `_generate_suno_text`:
classify each resolvable motif's stanza by substring match on the motif
name (undefined motifs are skipped silently). -/
def buildBuckets (st : Store) : List Value → Except RErr (List String × List String × List String)
  | [] => .ok ([], [], [])
  | mn0 :: rest =>
      let mn := match mn0 with
        | .listV (x :: _) => Value.str (pyStr x)
        | .listV [] => Value.str (pyStr (Value.listV []))
        | other => other
      if hashableKey mn then
        match dictGet st.motifs mn with
        | none => buildBuckets st rest
        | some m =>
            match mn with
            | .str s =>
                let ly := motifToLyrics m
                match buildBuckets st rest with
                | .error e => .error e
                | .ok (vs, cs, bs) =>
                    if strContains (pyLower s) "verse" then .ok (ly :: vs, cs, bs)
                    else if strContains (pyLower s) "chorus" then .ok (vs, ly :: cs, bs)
                    else if strContains (pyLower s) "bridge" then .ok (vs, cs, ly :: bs)
                    else .ok (ly :: vs, cs, bs)
            | _ => .error (.hostError "AttributeError: lower")
      else .error (.hostError "TypeError: unhashable type")

/-- The song-assembly tail of `_generate_suno_text`: verse headers with a
chorus after each verse, then the first bridge, then a closing chorus. -/
def assembleSong (verses choruses bridges : List String) : String :=
  let chorusBlock : List String :=
    match choruses with
    | c :: _ => ["[Chorus]", c, ""]
    | [] => []
  let verseParts :=
    (verses.enum.map fun (i, v) =>
      ["[Verse " ++ toString (i + 1) ++ "]", v, ""] ++ chorusBlock).join
  let parts := verseParts ++
    (match bridges with
     | b :: _ => ["[Bridge]", b, ""]
     | [] => []) ++ chorusBlock
  String.intercalate "\n" parts

/-- `_generate_suno_text`: resolve the composition's `leitmotif` key to a
leitmotif entity and synthesize the song text from its motif list. -/
def generateSunoText (st : Store) (composition : Value) : Except RErr String :=
  let ln0 : Option Value :=
    match composition with
    | .compositionV _ struct => dictGet struct (.str "leitmotif")
    | _ => none
  let ln : Option Value :=
    match ln0 with
    | some (.listV (x :: _)) => some x
    | some v => some v
    | none => none
  match ln with
  | none => .ok "No leitmotif found for composition"
  | some lname =>
      if pyTruthy lname then
        if hashableKey lname then
          match dictGet st.leitmotifs lname with
          | none => .ok "No leitmotif found for composition"
          | some l =>
              let motifNames := match l with
                | .leitmotifV _ ms _ => ms
                | _ => []
              match buildBuckets st motifNames with
              | .error e => .error e
              | .ok (vs, cs, bs) => .ok (assembleSong vs cs bs)
        else .error (.hostError "TypeError: unhashable type")
      else .ok "No leitmotif found for composition"

/-! ### Execution, control-flow and stub handlers -/

def composeOp (args : List Value) (st : Store) : Except RErr (Value × Store) :=
  match args with
  | [] => .error (.runtimeError "compose requires composition name")
  | name :: _ =>
      if hashableKey name then
        match dictGet st.compositions name with
        | none => .error (.runtimeError ("Composition '" ++ pyStr name ++ "' not defined"))
        | some c =>
            match generateSunoText st c with
            | .error e => .error e
            | .ok songText =>
                .ok (.dictV [(.str "status", .str "composed"), (.str "composition", name),
                             (.str "song_text", .str songText)], st)
      else .error (.hostError "TypeError: unhashable type")

def executeMotif (args : List Value) (st : Store) : Except RErr (Value × Store) :=
  match args with
  | [] => .error (.runtimeError "execute-motif requires motif name")
  | name :: _ =>
      if hashableKey name then
        match dictGet st.motifs name with
        | none => .error (.runtimeError ("Motif '" ++ pyStr name ++ "' not defined"))
        | some (.motifV _ _) =>
            .ok (.dictV [(.str "status", .str "executed"), (.str "motif", name)], st)
        | some _ => .error (.hostError "AttributeError: components")
      else .error (.hostError "TypeError: unhashable type")

/-- `_generate_emotion` performs no entity lookup at all. -/
def generateEmotion (args : List Value) (st : Store) : Except RErr (Value × Store) :=
  match args with
  | a :: b :: _ =>
      .ok (.dictV [(.str "status", .str "generated"), (.str "emotion", a),
                   (.str "intensity", b)], st)
  | _ => .error (.runtimeError "generate-emotion requires emotion name and intensity")

/-- `_apply_metaphor` performs no entity lookup at all. -/
def applyMetaphor (args : List Value) (st : Store) : Except RErr (Value × Store) :=
  match args with
  | a :: _ :: _ :: _ =>
      .ok (.dictV [(.str "status", .str "applied"), (.str "metaphor", a)], st)
  | _ => .error (.runtimeError "apply-metaphor requires metaphor name, source, and target")

/-- `_listener_state`: fixed mock mapping of mood names to booleans. -/
def listenerState (args : List Value) (st : Store) : Except RErr (Value × Store) :=
  match args with
  | [] => .error (.runtimeError "listener-state requires a state name")
  | s :: _ =>
      if hashableKey s then
        let b := match s with
          | .str "melancholy" => true
          | .str "joy" => false
          | .str "nostalgia" => true
          | .str "despair" => false
          | _ => false
        .ok (.boolV b, st)
      else .error (.hostError "TypeError: unhashable type")

def predictEmotionalTriggers (args : List Value) (st : Store) : Except RErr (Value × Store) :=
  match args with
  | _ :: _ :: _ =>
      .ok (.dictV [(.str "status", .str "predicted"),
                   (.str "triggers", .listV [.str "night", .str "silence",
                                            .str "distance", .str "memory"])], st)
  | _ => .error (.runtimeError "predict-emotional-triggers requires target emotion and context")

def optimizeForImpact (args : List Value) (st : Store) : Except RErr (Value × Store) :=
  match args with
  | a :: b :: _ =>
      .ok (.dictV [(.str "status", .str "optimized"), (.str "composition", a),
                   (.str "target", b)], st)
  | _ => .error (.runtimeError "optimize-for-impact requires composition name and target emotion")

/-- `_analyze_context` validates nothing: zero arguments fall back to a
default type list, and the returned payload is fixed either way. -/
def analyzeContext (_args : List Value) (st : Store) : Except RErr (Value × Store) :=
  .ok (.dictV [(.str "status", .str "analyzed"),
               (.str "context", .dictV [(.str "political", .str "global_uncertainty"),
                                        (.str "cultural", .str "western_contemporary"),
                                        (.str "temporal", .str "2024")])], st)

def generateSeedWordsOp (args : List Value) (st : Store) : Except RErr (Value × Store) :=
  match args with
  | _ :: _ :: _ :: _ =>
      .ok (.dictV [(.str "status", .str "generated"),
                   (.str "seed_words", .listV [.str "hammer", .str "void",
                                              .str "echo", .str "resonance"])], st)
  | _ => .error (.runtimeError "generate-seed-words requires emotion, intensity, and context")

mutual

/-- `_evaluate`: lists dispatch, strings resolve as symbols, every other
value evaluates to itself. -/
def evalValue : Nat → Value → Store → Except RErr (Value × Store)
  | 0, _, _ => .error .outOfFuel
  | fuel + 1, v, st =>
      match v with
      | .listV es => evalList fuel es st
      | .str s => .ok (evaluateSymbol st s, st)
      | other => .ok (other, st)

/-- `_evaluate_list`: the head is compared against each operator name in
the source's order; arguments are passed unevaluated.  (The fuel is
threaded structurally: every call between the mutually recursive
evaluation functions steps it down once, so sufficient fuel means fuel
at least the number of evaluation steps of the Python run.) -/
def evalList : Nat → List Value → Store → Except RErr (Value × Store)
  | _, [], st => .ok (.noneV, st)
  | 0, _ :: _, _ => .error .outOfFuel
  | fuel + 1, op :: args, st =>
      if beqValue op (.str "define-archetype") then defineArchetype args st
      else if beqValue op (.str "define-image") then defineImage args st
      else if beqValue op (.str "define-emotion") then defineEmotion args st
      else if beqValue op (.str "define-metaphor") then defineMetaphor args st
      else if beqValue op (.str "define-motif") then defineMotif args st
      else if beqValue op (.str "define-leitmotif") then defineLeitmotif args st
      else if beqValue op (.str "define-composition") then defineComposition args st
      else if beqValue op (.str "define-context") then defineContext args st
      else if beqValue op (.str "define-seed-words") then defineSeedWords args st
      else if beqValue op (.str "compose") then composeOp args st
      else if beqValue op (.str "execute-motif") then executeMotif args st
      else if beqValue op (.str "generate-emotion") then generateEmotion args st
      else if beqValue op (.str "apply-metaphor") then applyMetaphor args st
      else if beqValue op (.str "if-emotional-state") then ifEmotionalState fuel args st
      else if beqValue op (.str "while-emotional-state") then whileEmotionalState fuel args st
      else if beqValue op (.str "listener-state") then listenerState args st
      else if beqValue op (.str "predict-emotional-triggers") then predictEmotionalTriggers args st
      else if beqValue op (.str "optimize-for-impact") then optimizeForImpact args st
      else if beqValue op (.str "analyze-context") then analyzeContext args st
      else if beqValue op (.str "generate-seed-words") then generateSeedWordsOp args st
      else .error (.runtimeError ("Unknown operator: " ++ pyStr op))

/-- `_if_emotional_state`: evaluate the condition, then one branch. -/
def ifEmotionalState : Nat → List Value → Store → Except RErr (Value × Store)
  | 0, _, _ => .error .outOfFuel
  | fuel + 1, c :: t :: e :: _, st =>
      match evalValue fuel c st with
      | .error er => .error er
      | .ok (cv, st₁) =>
          if pyTruthy cv then evalValue fuel t st₁ else evalValue fuel e st₁
  | _ + 1, _, _ => .error (.runtimeError "if-emotional-state requires condition, then, and else")

/-- `_while_emotional_state`: a list-shaped second argument *is* the body
expression list; any other second argument becomes a singleton body. -/
def whileEmotionalState : Nat → List Value → Store → Except RErr (Value × Store)
  | 0, _, _ => .error .outOfFuel
  | fuel + 1, c :: b :: _, st =>
      let body := match b with
        | .listV l => l
        | other => [other]
      whileLoop fuel c body .noneV st
  | _ + 1, _, _ => .error (.runtimeError "while-emotional-state requires condition and body")

/-- The `while self._evaluate(condition):` loop, retaining the last body
result. -/
def whileLoop : Nat → Value → List Value → Value → Store → Except RErr (Value × Store)
  | 0, _, _, _, _ => .error .outOfFuel
  | fuel + 1, c, body, result, st =>
      match evalValue fuel c st with
      | .error er => .error er
      | .ok (cv, st₁) =>
          if pyTruthy cv then
            match evalSeq fuel body result st₁ with
            | .error er => .error er
            | .ok (result', st₂) => whileLoop fuel c body result' st₂
          else .ok (result, st₁)

/-- Sequential evaluation of expressions, threading the store and keeping
the last result (also the body of `interpret`). -/
def evalSeq : Nat → List Value → Value → Store → Except RErr (Value × Store)
  | _, [], result, st => .ok (result, st)
  | 0, _ :: _, _, _ => .error .outOfFuel
  | fuel + 1, e :: es, result, st =>
      match evalValue fuel e st with
      | .error er => .error er
      | .ok (v, st') => evalSeq fuel es v st'

end

/-- `interpret(ast)`: evaluate each top-level expression in order, with
`None` as the result of an empty program. -/
def interpret (fuel : Nat) (ast : List Value) (st : Store) : Except RErr (Value × Store) :=
  evalSeq fuel ast .noneV st

/-- `interpret_motif(code)`: `none` when parsing raised `SyntaxError`,
otherwise the interpretation outcome of the parsed program on a fresh
interpreter. -/
def runMotif (fuel : Nat) (code : String) : Option (Except RErr (Value × Store)) :=
  match parseMotif code with
  | .error _ => none
  | .ok ast => some (interpret fuel ast emptyStore)

/-! ## Observation helpers for the theorems -/

/-- The final entity store of a successful run. -/
def finalStore (r : Option (Except RErr (Value × Store))) : Option Store :=
  match r with
  | some (.ok (_, st)) => some st
  | _ => none

/-- The property dict of the archetype registered under `n`, when any. -/
def archProps (st : Store) (n : String) : Option (List (Value × Value)) :=
  match dictGet st.archetypes (.str n) with
  | some (.archetypeV _ props) => some props
  | _ => none

/-- The components dict of the motif registered under `n`, when any. -/
def motifComps (st : Store) (n : String) : Option (List (Value × Value)) :=
  match dictGet st.motifs (.str n) with
  | some (.motifV _ comps) => some comps
  | _ => none

/-- The symbol-resolution rule as the specification states it: probe the
seven mappings in the fixed precedence order and take the first hit,
falling back to the name itself as a literal. -/
def symbolResolutionSpec (st : Store) (n : String) : Value :=
  (([st.symbols, st.archetypes, st.emotions, st.metaphors, st.motifs,
     st.leitmotifs, st.compositions].filterMap fun d => dictGet d (.str n)).headD (.str n))

/-! ## Claim theorems -/

/-- The concrete program of scenario A. -/
def scenarioA : String :=
  "(define-archetype night (emotional-weight 0.9)) (define-motif m (archetypes (night)) (emotional-target melancholy))"

/-- C1 (counterexample): evaluating scenario A does register an archetype
`night` and a motif `m`, but the archetype's property dict does *not*
contain `emotional-weight` (the nested `(emotional-weight 0.9)` list is
args[1] with no args[2], so the stride-2 pair loop drops it), and the
motif's components do *not* contain the key `"archetypes"` (the list key
is stringified wholesale).  This refutes the claimed property mappings. -/
theorem C1_counterexample :
    (finalStore (runMotif 50 scenarioA)).map (fun st =>
      ((archProps st "night").map fun p => dictGet p (.str "emotional-weight"),
       (motifComps st "m").map fun c => dictGet c (.str "archetypes"))) =
    some (some none, some none) := rfl

/-- C1 (amended): scenario A registers archetype `night` with an *empty*
property dict, and motif `m` whose single component maps the stringified
key `"['archetypes', ['night']]"` to the (unconsumed next argument) value
`['emotional-target', 'melancholy']`; the run's result is the motif. -/
theorem C1_amended :
    runMotif 50 scenarioA =
      some (.ok (.motifV (.str "m")
          [(.str "['archetypes', ['night']]",
            .listV [.str "emotional-target", .str "melancholy"])],
        { symbols := [],
          archetypes := [(.str "night", .archetypeV (.str "night") [])],
          emotions := [], metaphors := [],
          motifs := [(.str "m", .motifV (.str "m")
            [(.str "['archetypes', ['night']]",
              .listV [.str "emotional-target", .str "melancholy"])])],
          leitmotifs := [], compositions := [], context := [] })) := rfl

theorem evaluateSymbol_eq_spec (st : Store) (n : String) :
    evaluateSymbol st n = symbolResolutionSpec st n := by
  unfold evaluateSymbol symbolResolutionSpec
  simp only [List.filterMap_cons, List.filterMap_nil]
  cases dictGet st.symbols (.str n) <;>
    cases dictGet st.archetypes (.str n) <;>
    cases dictGet st.emotions (.str n) <;>
    cases dictGet st.metaphors (.str n) <;>
    cases dictGet st.motifs (.str n) <;>
    cases dictGet st.leitmotifs (.str n) <;>
    cases dictGet st.compositions (.str n) <;>
    rfl

/-- C2: for every store and name, evaluating a bare symbol never raises:
it returns the entry of the first mapping containing the name in the
fixed order symbols, archetypes, emotions, metaphors, motifs, leitmotifs,
compositions, and the name itself as a literal when none contains it
(`symbolResolutionSpec` spells out exactly that probe order). -/
theorem C2_symbol_resolution (fuel : Nat) (st : Store) (n : String) :
    evalValue (fuel + 1) (.str n) st = .ok (symbolResolutionSpec st n, st) := by
  show Except.ok (evaluateSymbol st n, st) = _
  rw [evaluateSymbol_eq_spec]

/-- C4 (counterexample): `generate-emotion` invoked at its minimum arity
with a never-defined name `calm` does *not* raise: it succeeds with a
result dict and leaves the store untouched — the handler performs no
entity lookup at all, contradicting the claim that all four execution
operators signal a fatal error for an undefined name. -/
theorem C4_counterexample :
    runMotif 50 "(generate-emotion calm 0.1)" =
      some (.ok (.dictV [(.str "status", .str "generated"), (.str "emotion", .str "calm"),
                         (.str "intensity", .floatV 1 1)], emptyStore)) := rfl

/-- C4 (amended): `compose` and `execute-motif` do raise a runtime error
naming the missing entity (`(compose unknown-name)` concretely raises
`Composition 'unknown-name' not defined`), but `generate-emotion` and
`apply-metaphor` never consult the store: at or above their minimum
arity they succeed regardless of what is defined. -/
theorem C4_amended :
    (∀ (s : String) (rest : List Value) (st : Store),
      dictGet st.compositions (.str s) = none →
      composeOp (.str s :: rest) st =
        .error (.runtimeError ("Composition '" ++ s ++ "' not defined"))) ∧
    (∀ (s : String) (rest : List Value) (st : Store),
      dictGet st.motifs (.str s) = none →
      executeMotif (.str s :: rest) st =
        .error (.runtimeError ("Motif '" ++ s ++ "' not defined"))) ∧
    (∀ (a b : Value) (rest : List Value) (st : Store),
      generateEmotion (a :: b :: rest) st =
        .ok (.dictV [(.str "status", .str "generated"), (.str "emotion", a),
                     (.str "intensity", b)], st)) ∧
    (∀ (a b c : Value) (rest : List Value) (st : Store),
      applyMetaphor (a :: b :: c :: rest) st =
        .ok (.dictV [(.str "status", .str "applied"), (.str "metaphor", a)], st)) ∧
    runMotif 50 "(compose unknown-name)" =
      some (.error (.runtimeError "Composition 'unknown-name' not defined")) := by
  refine ⟨?_, ?_, ?_, ?_, rfl⟩
  · intro s rest st h
    simp [composeOp, hashableKey, h, pyStr]
  · intro s rest st h
    simp [executeMotif, hashableKey, h, pyStr]
  · intro a b rest st; rfl
  · intro a b c rest st; rfl

/-- C4 (witness): the general parts of the amended theorem applied at
concrete inputs. -/
theorem C4_amended_witness :
    composeOp [.str "x"] emptyStore =
      .error (.runtimeError "Composition 'x' not defined") ∧
    executeMotif [.str "x"] emptyStore =
      .error (.runtimeError "Motif 'x' not defined") :=
  ⟨C4_amended.1 "x" [] emptyStore rfl, C4_amended.2.1 "x" [] emptyStore rfl⟩

/-- C6 (counterexample): with the always-truthy condition `1` and the
single list-shaped body `((compose nobody))`, the loop raises
`Composition 'nobody' not defined` on its first iteration — the result
of evaluating the body's *element* — whereas evaluating the body
`((compose nobody))` as one whole expression raises
`Unknown operator: ['compose', 'nobody']`.  The two observable outcomes
differ, so the loop does not evaluate a list-shaped body as one whole
expression. -/
theorem C6_counterexample :
    runMotif 80 "(while-emotional-state 1 ((compose nobody)))" =
      some (.error (.runtimeError "Composition 'nobody' not defined")) ∧
    evalValue 10 (.listV [.listV [.str "compose", .str "nobody"]]) emptyStore =
      .error (.runtimeError "Unknown operator: ['compose', 'nobody']") := ⟨rfl, rfl⟩

/-- C6 (amended): a list-shaped body argument is spliced — its elements
become the body expression sequence, evaluated one by one per truthy
iteration — while only a non-list body is treated as a single expression;
the loop result is `None` when the body never runs (the spec's scenario D
confirms this concretely), and an erroring body element aborts the loop
with that element's error. -/
theorem C6_amended :
    (∀ (fuel : Nat) (c : Value) (es rest : List Value) (st : Store),
      whileEmotionalState (fuel + 1) (c :: .listV es :: rest) st =
        whileLoop fuel c es .noneV st) ∧
    (∀ (fuel : Nat) (c : Value) (s : String) (rest : List Value) (st : Store),
      whileEmotionalState (fuel + 1) (c :: .str s :: rest) st =
        whileLoop fuel c [.str s] .noneV st) ∧
    runMotif 50 "(while-emotional-state (listener-state despair) (generate-emotion calm 0.1))" =
      some (.ok (.noneV, emptyStore)) ∧
    runMotif 80 "(while-emotional-state 1 ((execute-motif ghost)))" =
      some (.error (.runtimeError "Motif 'ghost' not defined")) :=
  ⟨fun _ _ _ _ _ => rfl, fun _ _ _ _ _ => rfl, rfl, rfl⟩

/-- C7: each stub operator raises a runtime error below its minimum arity
(2 for `predict-emotional-triggers` and `optimize-for-impact`, 3 for
`generate-seed-words`, 0 for `analyze-context`, which accepts any
argument list), and at or above it returns its structured
status-plus-payload placeholder while leaving the store exactly as it
was and reading nothing from it (the right-hand sides do not depend on
the store). -/
theorem C7_stub_operators :
    (∀ (st : Store), predictEmotionalTriggers [] st =
      .error (.runtimeError "predict-emotional-triggers requires target emotion and context")) ∧
    (∀ (a : Value) (st : Store), predictEmotionalTriggers [a] st =
      .error (.runtimeError "predict-emotional-triggers requires target emotion and context")) ∧
    (∀ (a b : Value) (rest : List Value) (st : Store),
      predictEmotionalTriggers (a :: b :: rest) st =
        .ok (.dictV [(.str "status", .str "predicted"),
                     (.str "triggers", .listV [.str "night", .str "silence",
                                              .str "distance", .str "memory"])], st)) ∧
    (∀ (st : Store), optimizeForImpact [] st =
      .error (.runtimeError "optimize-for-impact requires composition name and target emotion")) ∧
    (∀ (a : Value) (st : Store), optimizeForImpact [a] st =
      .error (.runtimeError "optimize-for-impact requires composition name and target emotion")) ∧
    (∀ (a b : Value) (rest : List Value) (st : Store),
      optimizeForImpact (a :: b :: rest) st =
        .ok (.dictV [(.str "status", .str "optimized"), (.str "composition", a),
                     (.str "target", b)], st)) ∧
    (∀ (args : List Value) (st : Store),
      analyzeContext args st =
        .ok (.dictV [(.str "status", .str "analyzed"),
                     (.str "context", .dictV [(.str "political", .str "global_uncertainty"),
                                              (.str "cultural", .str "western_contemporary"),
                                              (.str "temporal", .str "2024")])], st)) ∧
    (∀ (st : Store), generateSeedWordsOp [] st =
      .error (.runtimeError "generate-seed-words requires emotion, intensity, and context")) ∧
    (∀ (a : Value) (st : Store), generateSeedWordsOp [a] st =
      .error (.runtimeError "generate-seed-words requires emotion, intensity, and context")) ∧
    (∀ (a b : Value) (st : Store), generateSeedWordsOp [a, b] st =
      .error (.runtimeError "generate-seed-words requires emotion, intensity, and context")) ∧
    (∀ (a b c : Value) (rest : List Value) (st : Store),
      generateSeedWordsOp (a :: b :: c :: rest) st =
        .ok (.dictV [(.str "status", .str "generated"),
                     (.str "seed_words", .listV [.str "hammer", .str "void",
                                                .str "echo", .str "resonance"])], st)) :=
  ⟨fun _ => rfl, fun _ _ => rfl, fun _ _ _ _ => rfl,
   fun _ => rfl, fun _ _ => rfl, fun _ _ _ _ => rfl,
   fun _ _ => rfl,
   fun _ => rfl, fun _ _ => rfl, fun _ _ _ => rfl, fun _ _ _ _ _ => rfl⟩

/-- C10: `define-image` stores the created image record into the
`symbols` mapping (not an image-specific one), and because
`_evaluate_symbol` probes `symbols` first, a bare symbol bound in
`symbols` resolves there no matter what any other mapping holds under
the same name. -/
theorem C10_define_image_symbols :
    (∀ (n : String) (rest : List Value) (st : Store) (sensory : List (Value × Value)),
      pairsRawE [] rest = .ok sensory →
      defineImage (.str n :: rest) st =
        .ok (.imageV (.str n) sensory,
          { st with symbols := dictSet st.symbols (.str n) (.imageV (.str n) sensory) })) ∧
    (∀ (st : Store) (n : String) (v : Value),
      dictGet st.symbols (.str n) = some v → evaluateSymbol st n = v) ∧
    (∀ (n : String) (rest : List Value) (st : Store) (sensory : List (Value × Value)),
      pairsRawE [] rest = .ok sensory →
      evaluateSymbol
        { st with symbols := dictSet st.symbols (.str n) (.imageV (.str n) sensory) } n =
        .imageV (.str n) sensory) := by
  have hstore : ∀ (st : Store) (n : String) (v : Value),
      dictGet st.symbols (.str n) = some v → evaluateSymbol st n = v := by
    intro st n v h
    unfold evaluateSymbol
    rw [h]
  refine ⟨?_, hstore, ?_⟩
  · intro n rest st sensory h
    simp [defineImage, h, hashableKey]
  · intro n rest st sensory _
    exact hstore _ n _ (by simpa using dictGet_dictSet st.symbols (.str n) _)

/-! ### Parser facts for C3: progress and failure on an unclosed list -/

theorem isAtEnd_false {tokens : List Token} {pos : Nat}
    (h : isAtEnd tokens pos = false) : pos < tokens.length := by
  unfold isAtEnd at h
  by_cases hl : pos < tokens.length
  · exact hl
  · simp [hl] at h

theorem isAtEnd_true_of_le {tokens : List Token} {pos : Nat}
    (h : tokens.length ≤ pos) : isAtEnd tokens pos = true := by
  unfold isAtEnd
  simp [Nat.not_lt_of_le h]

theorem checkTok_true {tokens : List Token} {pos : Nat} {ty : TokenType}
    (h : checkTok tokens pos ty = true) :
    pos < tokens.length ∧ (peekTok tokens pos).type = ty ∧ isAtEnd tokens pos = false := by
  unfold checkTok at h
  simp only [Bool.and_eq_true, Bool.not_eq_true', decide_eq_true_eq] at h
  exact ⟨isAtEnd_false h.1, h.2, h.1⟩

theorem consume_ok {tokens : List Token} {pos : Nat} {ty : TokenType} {msg : String}
    {tok : Token} {pos' : Nat}
    (h : consume tokens pos ty msg = .ok (tok, pos')) :
    checkTok tokens pos ty = true ∧ tok = peekTok tokens pos ∧ pos' = pos + 1 := by
  unfold consume at h
  by_cases hc : checkTok tokens pos ty = true
  · rw [if_pos hc] at h
    injection h with h
    injection h with h1 h2
    exact ⟨hc, h1.symm, h2.symm⟩
  · rw [if_neg hc] at h
    simp at h

theorem consume_error_of_atEnd {tokens : List Token} {pos : Nat} {ty : TokenType}
    {msg : String} (hty : ty ≠ .eofT) (h : isAtEnd tokens pos = true) :
    consume tokens pos ty msg =
      .error (.syntaxErr (msg ++ " at line " ++ toString (peekTok tokens pos).line ++
        ", column " ++ toString (peekTok tokens pos).column)) := by
  unfold consume checkTok
  rw [h]
  simp

theorem parseStringTok_ok {tokens : List Token} {pos : Nat} {v : Value} {pos' : Nat}
    (h : parseStringTok tokens pos = .ok (v, pos')) :
    checkTok tokens pos .stringT = true ∧ pos' = pos + 1 := by
  unfold parseStringTok at h
  cases hc : consume tokens pos .stringT "Expected string" with
  | error e => rw [hc] at h; simp at h
  | ok x =>
      obtain ⟨tok, p⟩ := x
      rw [hc] at h
      obtain ⟨hck, _, hp⟩ := consume_ok hc
      injection h with h
      injection h with _ h2
      exact ⟨hck, h2 ▸ hp⟩

theorem parseNumberTok_ok {tokens : List Token} {pos : Nat} {v : Value} {pos' : Nat}
    (h : parseNumberTok tokens pos = .ok (v, pos')) :
    checkTok tokens pos .numberT = true ∧ pos' = pos + 1 := by
  unfold parseNumberTok at h
  split at h
  · simp at h
  · rename_i tok p heq
    obtain ⟨hck, _, hp⟩ := consume_ok heq
    refine ⟨hck, ?_⟩
    split at h
    · split at h
      · injection h with h
        injection h with _ h2
        exact h2 ▸ hp
      · simp at h
    · split at h
      · injection h with h
        injection h with _ h2
        exact h2 ▸ hp
      · simp at h

theorem parseSymbolTok_ok {tokens : List Token} {pos : Nat} {v : Value} {pos' : Nat}
    (h : parseSymbolTok tokens pos = .ok (v, pos')) :
    checkTok tokens pos .symbolT = true ∧ pos' = pos + 1 := by
  unfold parseSymbolTok at h
  cases hc : consume tokens pos .symbolT "Expected symbol" with
  | error e => rw [hc] at h; simp at h
  | ok x =>
      obtain ⟨tok, p⟩ := x
      rw [hc] at h
      obtain ⟨hck, _, hp⟩ := consume_ok hc
      injection h with h
      injection h with _ h2
      exact ⟨hck, h2 ▸ hp⟩

/-- A successful expression parse strictly advances the position and
stays within bounds; a successful list loop never moves backwards. -/
theorem parse_progress (fuel : Nat) :
    (∀ tokens pos v pos', parseExpression fuel tokens pos = .ok (v, pos') →
      pos < pos' ∧ pos' ≤ tokens.length) ∧
    (∀ tokens pos acc vs pos', pos ≤ tokens.length →
      parseListLoop fuel tokens pos acc = .ok (vs, pos') →
      pos ≤ pos' ∧ pos' ≤ tokens.length) := by
  induction fuel with
  | zero =>
      constructor
      · intro tokens pos v pos' h; simp [parseExpression] at h
      · intro tokens pos acc vs pos' _ h; simp [parseListLoop] at h
  | succ fuel ih =>
      obtain ⟨ihE, ihL⟩ := ih
      constructor
      · intro tokens pos v pos' h
        simp only [parseExpression] at h
        split at h
        · -- LPAREN: consume '(' , loop, consume ')'
          split at h
          · simp at h
          · rename_i tok₁ pos₁ hc
            obtain ⟨hck₁, _, hp₁⟩ := consume_ok hc
            have hlt₁ : pos < tokens.length := (checkTok_true hck₁).1
            split at h
            · simp at h
            · rename_i elems pos₂ hl
              have hbound := ihL tokens pos₁ [] elems pos₂ (by omega) hl
              split at h
              · simp at h
              · rename_i tok₂ pos₃ hr
                obtain ⟨hck₂, _, hp₂⟩ := consume_ok hr
                have hlt₂ : pos₂ < tokens.length := (checkTok_true hck₂).1
                injection h with h
                injection h with _ h2
                subst h2
                omega
        · split at h
          · obtain ⟨hck, hp⟩ := parseStringTok_ok h
            have := (checkTok_true hck).1
            omega
          · split at h
            · obtain ⟨hck, hp⟩ := parseNumberTok_ok h
              have := (checkTok_true hck).1
              omega
            · split at h
              · obtain ⟨hck, hp⟩ := parseSymbolTok_ok h
                have := (checkTok_true hck).1
                omega
              · simp at h
      · intro tokens pos acc vs pos' hpos h
        simp only [parseListLoop] at h
        split at h
        · rename_i hcond
          -- loop body ran: not ')' and not at end
          have hend : isAtEnd tokens pos = false := by simpa using hcond.2
          have hlt : pos < tokens.length := isAtEnd_false hend
          split at h
          · have := ihL tokens (pos + 1) acc vs pos' (by omega) h
            omega
          · split at h
            · simp at h
            · rename_i v p' he
              have h1 := ihE tokens pos v p' he
              have h2 := ihL tokens p' (acc ++ [v]) vs pos' (by omega) h
              omega
        · injection h with h
          injection h with _ h2
          subst h2
          exact ⟨Nat.le_refl _, hpos⟩

/-- No `)` token occurs at or after position `pos`. -/
def noRParenFrom (tokens : List Token) (pos : Nat) : Bool :=
  (tokens.drop pos).all fun t => ¬ t.type = .rparen

theorem get_mem_drop : ∀ (l : List Token) (n : Nat) (h : n < l.length),
    l.get ⟨n, h⟩ ∈ l.drop n := by
  intro l
  induction l with
  | nil => intro n h; simp at h
  | cons a t ih =>
      intro n h
      cases n with
      | zero => simp
      | succ m => simpa using ih m (by simpa using h)

theorem mem_drop_succ : ∀ (l : List Token) (n : Nat) (x : Token),
    x ∈ l.drop (n + 1) → x ∈ l.drop n := by
  intro l
  induction l with
  | nil => intro n x h; simp at h
  | cons a t ih =>
      intro n x h
      cases n with
      | zero => simpa using Or.inr (by simpa using h)
      | succ m => simpa using ih m x (by simpa using h)

theorem noRParen_succ {tokens : List Token} {pos : Nat}
    (h : noRParenFrom tokens pos = true) : noRParenFrom tokens (pos + 1) = true := by
  unfold noRParenFrom at h ⊢
  rw [List.all_eq_true] at h ⊢
  intro x hx
  exact h x (mem_drop_succ tokens pos x hx)

theorem noRParen_mono {tokens : List Token} {pos q : Nat} (hle : pos ≤ q)
    (h : noRParenFrom tokens pos = true) : noRParenFrom tokens q = true := by
  obtain ⟨k, rfl⟩ := Nat.exists_eq_add_of_le hle
  induction k with
  | zero => simpa using h
  | succ m ih => exact (Nat.add_succ pos m) ▸ noRParen_succ (ih (Nat.le_add_right _ _))

theorem noRParen_peek {tokens : List Token} {pos : Nat}
    (h : noRParenFrom tokens pos = true) (hlt : pos < tokens.length) :
    ¬ (peekTok tokens pos).type = .rparen := by
  unfold noRParenFrom at h
  rw [List.all_eq_true] at h
  have hmem := get_mem_drop tokens pos hlt
  have := h _ hmem
  simp only [decide_eq_true_eq] at this
  unfold peekTok
  rw [dif_pos hlt]
  exact this

theorem isAtEnd_false_peek_ne_eof {tokens : List Token} {pos : Nat}
    (h : isAtEnd tokens pos = false) : ¬ (peekTok tokens pos).type = .eofT := by
  unfold isAtEnd at h
  by_cases hl : pos < tokens.length
  · rw [if_pos hl] at h
    simpa using h
  · rw [if_neg hl] at h
    simp at h

/-- Forward evaluation of `_parse_list` when the current token is `(`. -/
theorem parseExpression_lparen_eq {tokens : List Token} {pos fuel : Nat}
    (hpk : (peekTok tokens pos).type = .lparen)
    (hchk : checkTok tokens pos .lparen = true) :
    parseExpression (fuel + 1) tokens pos =
      match parseListLoop fuel tokens (pos + 1) [] with
      | .error e => .error e
      | .ok (elems, pos₂) =>
          match consume tokens pos₂ .rparen "Expected ')'" with
          | .error e => .error e
          | .ok (_, pos₃) => .ok (.listV elems, pos₃) := by
  have hcons : consume tokens pos .lparen "Expected '('" = .ok (peekTok tokens pos, pos + 1) := by
    unfold consume
    rw [if_pos hchk]
  simp only [parseExpression, hpk]
  rw [hcons]
  rfl

/-- Forward evaluation of a STRING token parse. -/
theorem parseStringTok_eq {tokens : List Token} {pos : Nat}
    (hchk : checkTok tokens pos .stringT = true) :
    parseStringTok tokens pos =
      .ok (.str (String.mk ((peekTok tokens pos).value.toList.drop 1).dropLast), pos + 1) := by
  have hcons : consume tokens pos .stringT "Expected string" =
      .ok (peekTok tokens pos, pos + 1) := by
    unfold consume
    rw [if_pos hchk]
  unfold parseStringTok
  rw [hcons]

/-- Forward evaluation of a SYMBOL token parse. -/
theorem parseSymbolTok_eq {tokens : List Token} {pos : Nat}
    (hchk : checkTok tokens pos .symbolT = true) :
    parseSymbolTok tokens pos = .ok (.str (peekTok tokens pos).value, pos + 1) := by
  have hcons : consume tokens pos .symbolT "Expected symbol" =
      .ok (peekTok tokens pos, pos + 1) := by
    unfold consume
    rw [if_pos hchk]
  unfold parseSymbolTok
  rw [hcons]

/-- Forward evaluation of a NUMBER token parse: either a literal value at
the next position or the `Invalid number` syntax error. -/
theorem parseNumberTok_eq {tokens : List Token} {pos : Nat}
    (hchk : checkTok tokens pos .numberT = true) :
    (∃ v, parseNumberTok tokens pos = .ok (v, pos + 1)) ∨
    parseNumberTok tokens pos =
      .error (.syntaxErr ("Invalid number: " ++ (peekTok tokens pos).value)) := by
  have hcons : consume tokens pos .numberT "Expected number" =
      .ok (peekTok tokens pos, pos + 1) := by
    unfold consume
    rw [if_pos hchk]
  unfold parseNumberTok
  rw [hcons]
  simp only []
  by_cases hdot : (peekTok tokens pos).value.toList.contains '.' = true
  · rw [if_pos hdot]
    cases hf : pyFloatParse (peekTok tokens pos).value with
    | none => exact Or.inr rfl
    | some md => exact Or.inl ⟨.floatV md.1 md.2, rfl⟩
  · rw [if_neg hdot]
    cases hi : pyIntParse (peekTok tokens pos).value with
    | none => exact Or.inr rfl
    | some n => exact Or.inl ⟨.intV n, rfl⟩

/-- One step of `_parse_expression` dispatch at a STRING token. -/
theorem parseExpression_string_eq {tokens : List Token} {pos f : Nat}
    (h : (peekTok tokens pos).type = .stringT) :
    parseExpression (f + 1) tokens pos = parseStringTok tokens pos := by
  simp only [parseExpression, h]
  rfl

/-- One step of `_parse_expression` dispatch at a NUMBER token. -/
theorem parseExpression_number_eq {tokens : List Token} {pos f : Nat}
    (h : (peekTok tokens pos).type = .numberT) :
    parseExpression (f + 1) tokens pos = parseNumberTok tokens pos := by
  simp only [parseExpression, h]
  rfl

/-- One step of `_parse_expression` dispatch at a SYMBOL token. -/
theorem parseExpression_symbol_eq {tokens : List Token} {pos f : Nat}
    (h : (peekTok tokens pos).type = .symbolT) :
    parseExpression (f + 1) tokens pos = parseSymbolTok tokens pos := by
  simp only [parseExpression, h]
  rfl

/-- On a token suffix containing no `)`, an expression parse starting at a
`(` always fails with a `SyntaxError` (given fuel covering the suffix),
and the list-element loop either stops at the end of input or fails with
a `SyntaxError`. -/
theorem parse_norparen (fuel : Nat) :
    (∀ tokens pos, noRParenFrom tokens pos = true → pos < tokens.length →
      (peekTok tokens pos).type = .lparen → 2 * (tokens.length - pos) + 2 ≤ fuel →
      ∃ m, parseExpression fuel tokens pos = .error (.syntaxErr m)) ∧
    (∀ tokens pos acc, noRParenFrom tokens pos = true →
      2 * (tokens.length - pos) + 3 ≤ fuel →
      (∃ vs pos', parseListLoop fuel tokens pos acc = .ok (vs, pos') ∧
        isAtEnd tokens pos' = true) ∨
      (∃ m, parseListLoop fuel tokens pos acc = .error (.syntaxErr m))) := by
  induction fuel with
  | zero =>
      constructor
      · intro tokens pos _ _ _ hf; omega
      · intro tokens pos acc _ hf; omega
  | succ fuel ih =>
      obtain ⟨ihE, ihL⟩ := ih
      constructor
      · intro tokens pos hnr hlt hpk hfuel
        have hend : isAtEnd tokens pos = false := by
          unfold isAtEnd
          rw [if_pos hlt, hpk]
          rfl
        have hchk : checkTok tokens pos .lparen = true := by
          unfold checkTok
          rw [hend, hpk]
          rfl
        rw [parseExpression_lparen_eq hpk hchk]
        rcases ihL tokens (pos + 1) [] (noRParen_succ hnr) (by omega) with
          ⟨vs, pos', hloop, hend'⟩ | ⟨m, hloop⟩
        · rw [hloop]
          have hfin : (match consume tokens pos' TokenType.rparen "Expected ')'" with
                | .error e => (.error e : Except PErr (Value × Nat))
                | .ok (_, pos₃) => .ok (.listV vs, pos₃)) =
              .error (.syntaxErr ("Expected ')'" ++ " at line " ++
                toString (peekTok tokens pos').line ++ ", column " ++
                toString (peekTok tokens pos').column)) := by
            rw [@consume_error_of_atEnd tokens pos' .rparen "Expected ')'" (by decide) hend']
          exact ⟨_, hfin⟩
        · rw [hloop]
          exact ⟨m, rfl⟩
      · intro tokens pos acc hnr hfuel
        by_cases hend : isAtEnd tokens pos = true
        · left
          refine ⟨acc, pos, ?_, hend⟩
          simp only [parseListLoop]
          rw [if_neg (by simp [hend])]
        · have hendf : isAtEnd tokens pos = false := by
            simpa using hend
          have hlt : pos < tokens.length := isAtEnd_false hendf
          have hnrp : ¬ (peekTok tokens pos).type = .rparen := noRParen_peek hnr hlt
          have hneof : ¬ (peekTok tokens pos).type = .eofT := isAtEnd_false_peek_ne_eof hendf
          have hck : checkTok tokens pos .rparen = false := by
            unfold checkTok
            simp [hnrp]
          have hcond : ¬ checkTok tokens pos .rparen = true ∧ ¬ isAtEnd tokens pos = true := by
            simp [hck, hend]
          obtain ⟨f', rfl⟩ : ∃ f', fuel = f' + 1 := ⟨fuel - 1, by omega⟩
          cases hty : (peekTok tokens pos).type with
          | commentT =>
              have hstep : parseListLoop (f' + 1 + 1) tokens pos acc =
                  parseListLoop (f' + 1) tokens (pos + 1) acc := by
                simp only [parseListLoop]
                rw [if_pos hcond, if_pos hty]
              rcases ihL tokens (pos + 1) acc (noRParen_succ hnr) (by omega) with
                ⟨vs, pos', hl, he⟩ | ⟨m, hl⟩
              · exact Or.inl ⟨vs, pos', hstep.trans hl, he⟩
              · exact Or.inr ⟨m, hstep.trans hl⟩
          | lparen =>
              obtain ⟨m, he⟩ := ihE tokens pos hnr hlt hty (by omega)
              have hstep : parseListLoop (f' + 1 + 1) tokens pos acc =
                  .error (.syntaxErr m) := by
                simp only [parseListLoop]
                rw [if_pos hcond, if_neg (by rw [hty]; intro hc; cases hc), he]
              exact Or.inr ⟨m, hstep⟩
          | stringT =>
              have hchk' : checkTok tokens pos .stringT = true := by
                unfold checkTok
                rw [hendf, hty]
                rfl
              have hstep : parseListLoop (f' + 1 + 1) tokens pos acc =
                  parseListLoop (f' + 1) tokens (pos + 1)
                    (acc ++ [.str (String.mk
                      ((peekTok tokens pos).value.toList.drop 1).dropLast)]) := by
                simp only [parseListLoop]
                rw [if_pos hcond, if_neg (by rw [hty]; intro hc; cases hc),
                  parseExpression_string_eq hty, parseStringTok_eq hchk']
              rcases ihL tokens (pos + 1) _ (noRParen_succ hnr) (by omega) with
                ⟨vs, pos', hl, he⟩ | ⟨m, hl⟩
              · exact Or.inl ⟨vs, pos', hstep.trans hl, he⟩
              · exact Or.inr ⟨m, hstep.trans hl⟩
          | symbolT =>
              have hchk' : checkTok tokens pos .symbolT = true := by
                unfold checkTok
                rw [hendf, hty]
                rfl
              have hstep : parseListLoop (f' + 1 + 1) tokens pos acc =
                  parseListLoop (f' + 1) tokens (pos + 1)
                    (acc ++ [.str (peekTok tokens pos).value]) := by
                simp only [parseListLoop]
                rw [if_pos hcond, if_neg (by rw [hty]; intro hc; cases hc),
                  parseExpression_symbol_eq hty, parseSymbolTok_eq hchk']
              rcases ihL tokens (pos + 1) _ (noRParen_succ hnr) (by omega) with
                ⟨vs, pos', hl, he⟩ | ⟨m, hl⟩
              · exact Or.inl ⟨vs, pos', hstep.trans hl, he⟩
              · exact Or.inr ⟨m, hstep.trans hl⟩
          | numberT =>
              have hchk' : checkTok tokens pos .numberT = true := by
                unfold checkTok
                rw [hendf, hty]
                rfl
              rcases parseNumberTok_eq hchk' with ⟨v, hne⟩ | hne
              · have hstep : parseListLoop (f' + 1 + 1) tokens pos acc =
                    parseListLoop (f' + 1) tokens (pos + 1) (acc ++ [v]) := by
                  simp only [parseListLoop]
                  rw [if_pos hcond, if_neg (by rw [hty]; intro hc; cases hc),
                    parseExpression_number_eq hty, hne]
                rcases ihL tokens (pos + 1) _ (noRParen_succ hnr) (by omega) with
                  ⟨vs, pos', hl, he⟩ | ⟨m, hl⟩
                · exact Or.inl ⟨vs, pos', hstep.trans hl, he⟩
                · exact Or.inr ⟨m, hstep.trans hl⟩
              · have hstep : parseListLoop (f' + 1 + 1) tokens pos acc =
                    .error (.syntaxErr ("Invalid number: " ++ (peekTok tokens pos).value)) := by
                  simp only [parseListLoop]
                  rw [if_pos hcond, if_neg (by rw [hty]; intro hc; cases hc),
                    parseExpression_number_eq hty, hne]
                exact Or.inr ⟨_, hstep⟩
          | rparen => exact absurd hty hnrp
          | eofT => exact absurd hty hneof

/-! ### Parser facts for C3, general form: totality and unmatched parens

`openDepth d ts` scans the token sequence up to its first EOF token (the
point where `_is_at_end` stops the parser) and returns the number of
still-open lists: `(` opens one, `)` closes the innermost open one (a
stray `)` with nothing open closes nothing — truncated subtraction),
every other token is neutral.  "Some list's closing paren is never
reached before end-of-input" is exactly `openDepth 0 ts ≠ 0`. -/

/-- Unmatched-open-paren count of a token sequence, up to its first EOF
token. -/
def openDepth (d : Nat) : List Token → Nat
  | [] => d
  | t :: rest =>
      match t.type with
      | .eofT => d
      | .lparen => openDepth (d + 1) rest
      | .rparen => openDepth (d - 1) rest
      | _ => openDepth d rest

/-- `consume` only ever raises a `SyntaxError`. -/
theorem consume_error_msg {tokens : List Token} {pos : Nat} {ty : TokenType}
    {msg : String} {e : PErr} (h : consume tokens pos ty msg = .error e) :
    ∃ m, e = .syntaxErr m := by
  unfold consume at h
  split at h
  · simp at h
  · injection h with h
    exact ⟨_, h.symm⟩

theorem parseStringTok_ne_oof {tokens : List Token} {pos : Nat} :
    parseStringTok tokens pos ≠ .error .outOfFuel := by
  intro h
  unfold parseStringTok at h
  split at h
  · rename_i e heq
    obtain ⟨m, rfl⟩ := consume_error_msg heq
    simp at h
  · simp at h

theorem parseNumberTok_ne_oof {tokens : List Token} {pos : Nat} :
    parseNumberTok tokens pos ≠ .error .outOfFuel := by
  intro h
  unfold parseNumberTok at h
  split at h
  · rename_i e heq
    obtain ⟨m, rfl⟩ := consume_error_msg heq
    simp at h
  · split at h
    · split at h <;> simp at h
    · split at h <;> simp at h

theorem parseSymbolTok_ne_oof {tokens : List Token} {pos : Nat} :
    parseSymbolTok tokens pos ≠ .error .outOfFuel := by
  intro h
  unfold parseSymbolTok at h
  split at h
  · rename_i e heq
    obtain ⟨m, rfl⟩ := consume_error_msg heq
    simp at h
  · simp at h

/-- With fuel covering twice the remaining tokens, the recursive-descent
functions never exhaust their fuel: the Python recursion terminates on
every token sequence whatsoever. -/
theorem parse_nofuel (fuel : Nat) :
    (∀ tokens pos, pos ≤ tokens.length → 2 * (tokens.length - pos) + 2 ≤ fuel →
      parseExpression fuel tokens pos ≠ .error .outOfFuel) ∧
    (∀ tokens pos acc, pos ≤ tokens.length → 2 * (tokens.length - pos) + 3 ≤ fuel →
      parseListLoop fuel tokens pos acc ≠ .error .outOfFuel) := by
  induction fuel with
  | zero =>
      constructor
      · intro tokens pos _ hf; omega
      · intro tokens pos acc _ hf; omega
  | succ fuel ih =>
      obtain ⟨ihE, ihL⟩ := ih
      constructor
      · intro tokens pos hpos hfuel heq
        simp only [parseExpression] at heq
        split at heq
        · split at heq
          · rename_i e hc
            obtain ⟨m, rfl⟩ := consume_error_msg hc
            simp at heq
          · rename_i tok₁ pos₁ hc
            obtain ⟨hck₁, _, hp₁⟩ := consume_ok hc
            have hlt₁ : pos < tokens.length := (checkTok_true hck₁).1
            split at heq
            · rename_i e hl
              injection heq with heq
              subst heq
              exact ihL tokens pos₁ [] (by omega) (by omega) hl
            · rename_i elems pos₂ hl
              split at heq
              · rename_i e hr
                obtain ⟨m, rfl⟩ := consume_error_msg hr
                simp at heq
              · simp at heq
        · split at heq
          · exact parseStringTok_ne_oof heq
          · split at heq
            · exact parseNumberTok_ne_oof heq
            · split at heq
              · exact parseSymbolTok_ne_oof heq
              · simp at heq
      · intro tokens pos acc hpos hfuel heq
        simp only [parseListLoop] at heq
        split at heq
        · rename_i hcond
          have hendf : isAtEnd tokens pos = false := by simpa using hcond.2
          have hlt : pos < tokens.length := isAtEnd_false hendf
          split at heq
          · exact ihL tokens (pos + 1) acc (by omega) (by omega) heq
          · split at heq
            · rename_i e he
              injection heq with heq
              subst heq
              exact ihE tokens pos (by omega) (by omega) he
            · rename_i v p' he
              have hprog := (parse_progress fuel).1 tokens pos v p' he
              exact ihL tokens p' (acc ++ [v]) (by omega) (by omega) heq
        · simp at heq

/-- The top-level program loop never exhausts the canonical fuel either. -/
theorem parseProgramLoop_nofuel (fuel : Nat) :
    ∀ tokens pos acc, pos ≤ tokens.length → 2 * (tokens.length - pos) + 3 ≤ fuel →
      parseProgramLoop fuel tokens pos acc ≠ .error .outOfFuel := by
  induction fuel with
  | zero => intro tokens pos acc _ hf; omega
  | succ fuel ih =>
      intro tokens pos acc hpos hfuel heq
      simp only [parseProgramLoop] at heq
      split at heq
      · rename_i hcond
        have hendf : isAtEnd tokens pos = false := by simpa using hcond
        have hlt : pos < tokens.length := isAtEnd_false hendf
        split at heq
        · exact ih tokens (pos + 1) acc (by omega) (by omega) heq
        · split at heq
          · rename_i e he
            injection heq with heq
            subst heq
            exact (parse_nofuel fuel).1 tokens pos (by omega) (by omega) he
          · rename_i v p' he
            have hprog := (parse_progress fuel).1 tokens pos v p' he
            exact ih tokens p' (acc ++ [v]) (by omega) (by omega) heq
      · simp at heq

/-- `parse` terminates on every token sequence: its canonical fuel is
never exhausted. -/
theorem parse_ne_oof (tokens : List Token) : parse tokens ≠ .error .outOfFuel := by
  unfold parse parseFuel
  exact parseProgramLoop_nofuel (2 * tokens.length + 3) tokens 0 [] (Nat.zero_le _) (by omega)

theorem drop_eq_peek_cons : ∀ (l : List Token) (n : Nat), n < l.length →
    l.drop n = peekTok l n :: l.drop (n + 1) := by
  intro l
  induction l with
  | nil => intro n h; simp at h
  | cons a t ih =>
      intro n h
      cases n with
      | zero =>
          show a :: t = peekTok (a :: t) 0 :: t
          unfold peekTok
          rw [dif_pos h]
          rfl
      | succ m =>
          have hm : m < t.length := by simpa using h
          show t.drop m = _ :: t.drop (m + 1)
          rw [ih m hm]
          unfold peekTok
          rw [dif_pos hm, dif_pos h]
          rfl

theorem openDepth_lparen {tokens : List Token} {pos d : Nat} (h : pos < tokens.length)
    (hty : (peekTok tokens pos).type = .lparen) :
    openDepth d (tokens.drop pos) = openDepth (d + 1) (tokens.drop (pos + 1)) := by
  rw [drop_eq_peek_cons tokens pos h]
  simp [openDepth, hty]

theorem openDepth_rparen {tokens : List Token} {pos d : Nat} (h : pos < tokens.length)
    (hty : (peekTok tokens pos).type = .rparen) :
    openDepth d (tokens.drop pos) = openDepth (d - 1) (tokens.drop (pos + 1)) := by
  rw [drop_eq_peek_cons tokens pos h]
  simp [openDepth, hty]

theorem openDepth_other {tokens : List Token} {pos d : Nat} (h : pos < tokens.length)
    (h1 : ¬ (peekTok tokens pos).type = .lparen)
    (h2 : ¬ (peekTok tokens pos).type = .rparen)
    (h3 : ¬ (peekTok tokens pos).type = .eofT) :
    openDepth d (tokens.drop pos) = openDepth d (tokens.drop (pos + 1)) := by
  rw [drop_eq_peek_cons tokens pos h]
  cases hty : (peekTok tokens pos).type with
  | lparen => exact absurd hty h1
  | rparen => exact absurd hty h2
  | eofT => exact absurd hty h3
  | symbolT => simp [openDepth, hty]
  | stringT => simp [openDepth, hty]
  | numberT => simp [openDepth, hty]
  | commentT => simp [openDepth, hty]

theorem openDepth_atEnd {tokens : List Token} {pos d : Nat}
    (h : isAtEnd tokens pos = true) : openDepth d (tokens.drop pos) = d := by
  unfold isAtEnd at h
  by_cases hl : pos < tokens.length
  · rw [if_pos hl] at h
    simp only [decide_eq_true_eq] at h
    rw [drop_eq_peek_cons tokens pos hl]
    simp [openDepth, h]
  · rw [List.drop_eq_nil_of_le (Nat.le_of_not_lt hl)]
    rfl

/-- Every successfully parsed expression is a balanced token segment: the
open-list count scanned from its start equals the count scanned from
just past its end, whatever the ambient depth. -/
theorem parse_balanced (fuel : Nat) :
    (∀ tokens pos v pos', parseExpression fuel tokens pos = .ok (v, pos') →
      ∀ d, openDepth d (tokens.drop pos) = openDepth d (tokens.drop pos')) ∧
    (∀ tokens pos acc vs pos', parseListLoop fuel tokens pos acc = .ok (vs, pos') →
      ∀ d, openDepth d (tokens.drop pos) = openDepth d (tokens.drop pos')) := by
  induction fuel with
  | zero =>
      constructor
      · intro tokens pos v pos' h; simp [parseExpression] at h
      · intro tokens pos acc vs pos' h; simp [parseListLoop] at h
  | succ fuel ih =>
      obtain ⟨ihE, ihL⟩ := ih
      constructor
      · intro tokens pos v pos' h
        simp only [parseExpression] at h
        split at h
        · rename_i hpk
          split at h
          · simp at h
          · rename_i tok₁ pos₁ hc
            obtain ⟨hck₁, _, hp₁⟩ := consume_ok hc
            have hlt₁ : pos < tokens.length := (checkTok_true hck₁).1
            split at h
            · simp at h
            · rename_i elems pos₂ hl
              split at h
              · simp at h
              · rename_i tok₂ pos₃ hr
                obtain ⟨hck₂, _, hp₂⟩ := consume_ok hr
                have hlt₂ : pos₂ < tokens.length := (checkTok_true hck₂).1
                have hpk₂ : (peekTok tokens pos₂).type = .rparen := (checkTok_true hck₂).2.1
                injection h with h
                injection h with _ h2
                subst h2
                subst hp₂
                subst hp₁
                intro d
                calc openDepth d (tokens.drop pos)
                    = openDepth (d + 1) (tokens.drop (pos + 1)) :=
                      openDepth_lparen hlt₁ hpk
                  _ = openDepth (d + 1) (tokens.drop pos₂) :=
                      ihL tokens (pos + 1) [] elems pos₂ hl (d + 1)
                  _ = openDepth (d + 1 - 1) (tokens.drop (pos₂ + 1)) :=
                      openDepth_rparen hlt₂ hpk₂
                  _ = openDepth d (tokens.drop (pos₂ + 1)) := by simp
        · split at h
          · obtain ⟨hck, hp⟩ := parseStringTok_ok h
            have hlt := (checkTok_true hck).1
            have hty := (checkTok_true hck).2.1
            subst hp
            intro d
            exact openDepth_other hlt (by rw [hty]; decide) (by rw [hty]; decide)
              (by rw [hty]; decide)
          · split at h
            · obtain ⟨hck, hp⟩ := parseNumberTok_ok h
              have hlt := (checkTok_true hck).1
              have hty := (checkTok_true hck).2.1
              subst hp
              intro d
              exact openDepth_other hlt (by rw [hty]; decide) (by rw [hty]; decide)
                (by rw [hty]; decide)
            · split at h
              · obtain ⟨hck, hp⟩ := parseSymbolTok_ok h
                have hlt := (checkTok_true hck).1
                have hty := (checkTok_true hck).2.1
                subst hp
                intro d
                exact openDepth_other hlt (by rw [hty]; decide) (by rw [hty]; decide)
                  (by rw [hty]; decide)
              · simp at h
      · intro tokens pos acc vs pos' h
        simp only [parseListLoop] at h
        split at h
        · rename_i hcond
          have hendf : isAtEnd tokens pos = false := by simpa using hcond.2
          have hlt : pos < tokens.length := isAtEnd_false hendf
          split at h
          · rename_i hcom
            intro d
            rw [openDepth_other hlt (by rw [hcom]; decide) (by rw [hcom]; decide)
              (by rw [hcom]; decide)]
            exact ihL tokens (pos + 1) acc vs pos' h d
          · split at h
            · simp at h
            · rename_i v p' he
              intro d
              rw [ihE tokens pos v p' he d]
              exact ihL tokens p' (acc ++ [v]) vs pos' h d
        · injection h with h
          injection h with _ h2
          subst h2
          intro d
          rfl

/-- A successful top-level parse consumes a fully balanced token
sequence: no open list is left behind. -/
theorem parseProgramLoop_balanced (fuel : Nat) :
    ∀ tokens pos acc vs, parseProgramLoop fuel tokens pos acc = .ok vs →
      ∀ d, openDepth d (tokens.drop pos) = d := by
  induction fuel with
  | zero => intro tokens pos acc vs h; simp [parseProgramLoop] at h
  | succ fuel ih =>
      intro tokens pos acc vs h
      simp only [parseProgramLoop] at h
      split at h
      · rename_i hcond
        have hendf : isAtEnd tokens pos = false := by simpa using hcond
        have hlt : pos < tokens.length := isAtEnd_false hendf
        split at h
        · rename_i hcom
          intro d
          rw [openDepth_other hlt (by rw [hcom]; decide) (by rw [hcom]; decide)
            (by rw [hcom]; decide)]
          exact ih tokens (pos + 1) acc vs h d
        · split at h
          · simp at h
          · rename_i v p' he
            intro d
            rw [(parse_balanced fuel).1 tokens pos v p' he d]
            exact ih tokens p' (acc ++ [v]) vs h d
      · rename_i hcond
        have hend : isAtEnd tokens pos = true := by simpa using hcond
        intro d
        exact openDepth_atEnd hend

/-- Any token sequence with an unclosed list — an unmatched `(` before
its end-of-input — parses to a `SyntaxError`: the parser cannot succeed
on it (success implies balance) and cannot diverge (fuel sufficiency),
so it raises. -/
theorem parse_unbalanced_errors (tokens : List Token)
    (h : ¬ openDepth 0 tokens = 0) :
    ∃ m, parse tokens = .error (.syntaxErr m) := by
  cases hres : parse tokens with
  | ok vs =>
      have hb := parseProgramLoop_balanced (parseFuel tokens) tokens 0 [] vs hres 0
      simp at hb
      exact absurd hb h
  | error e =>
      cases e with
      | syntaxErr m => exact ⟨m, rfl⟩
      | outOfFuel => exact absurd hres (parse_ne_oof tokens)

/-- C3 (counterexample): the source `(-` is a token sequence whose list
is never closed before end-of-input (no `)` token at all), and parsing
it does terminate with a syntax error — but that error, `Invalid
number: -` (the lone `-` lexes as a NUMBER token that `int()` rejects),
reports no line and column at all: the claim's "reports the line and
column of the current token" fails for it. -/
theorem C3_counterexample :
    parseMotif "(-" = .error (.syntaxErr "Invalid number: -") ∧
    noRParenFrom (tokenize "(-") 0 = true ∧
    subOf "line".toList "Invalid number: -".toList = false := ⟨rfl, rfl, rfl⟩

/-- C3 (amended): for every token sequence in which a list's closing
paren is never reached before end-of-input — captured exactly by an
unmatched `(` remaining when the scan hits EOF (`openDepth ≠ 0`), which
covers unclosed lists containing closed inner lists and unclosed lists
preceded by other complete expressions — `parse` terminates by raising a
`SyntaxError`, and the caller receives no partial tree (the result type
admits no partial success).  When the failure is the missing `)` itself —
the close-paren consume at any end-of-input position — the error reports
the current token's line and column; the claim's example errors with
`Expected ')' at line 1, column 47`.  (A token-level failure hit first,
such as the invalid number literal of the counterexample, may omit the
position.) -/
theorem C3_amended :
    (∀ tokens : List Token, ¬ openDepth 0 tokens = 0 →
      ∃ m, parse tokens = .error (.syntaxErr m)) ∧
    (∀ (tokens : List Token) (pos : Nat), isAtEnd tokens pos = true →
      consume tokens pos .rparen "Expected ')'" =
        .error (.syntaxErr ("Expected ')'" ++ " at line " ++
          toString (peekTok tokens pos).line ++ ", column " ++
          toString (peekTok tokens pos).column))) ∧
    parseMotif "(define-archetype night (emotional-weight 0.9)" =
      .error (.syntaxErr "Expected ')' at line 1, column 47") :=
  ⟨parse_unbalanced_errors,
   fun tokens pos h => consume_error_of_atEnd (by decide) h,
   rfl⟩

/-- C3 (witness): the general unclosed-list statement applied to
`(a (b)` — an unclosed list that contains a closed inner list — and the
missing-close-paren report applied to the EOF position of the empty
token stream. -/
theorem C3_amended_witness :
    (∃ m, parse (tokenize "(a (b)") = .error (.syntaxErr m)) ∧
    consume (tokenize "") 0 .rparen "Expected ')'" =
      .error (.syntaxErr ("Expected ')'" ++ " at line " ++
        toString (peekTok (tokenize "") 0).line ++ ", column " ++
        toString (peekTok (tokenize "") 0).column)) :=
  ⟨C3_amended.1 (tokenize "(a (b)") (by decide),
   C3_amended.2.1 (tokenize "") 0 (by decide)⟩

/-- The fixed four-line autumn stanza of `_motif_to_lyrics`. -/
def autumnStanza : String :=
  "Like autumn leaves, our love did fall\nBut memories remain, through it all\nGolden moments in my mind\nA love that time could never bind"

/-- C8: any motif whose extracted archetype tag list is exactly
`["autumn"]` synthesizes the fixed autumn stanza verbatim: the autumn
template is the only archetype rule that fires, metaphor templates are
appended after it, and the four-line truncation keeps exactly the autumn
block whatever else the components contain. -/
theorem C8_autumn_stanza (nm : Value) (comps : List (Value × Value))
    (h : cleanTags (extractAM comps).1 = ["autumn"]) :
    motifToLyrics (.motifV nm comps) = autumnStanza := by
  simp only [motifToLyrics]
  rw [h]
  rfl

/-- C8 (witness): a motif whose only component is `archetypes ↦ "autumn"`
satisfies the tag hypothesis and produces the stanza. -/
theorem C8_autumn_stanza_witness :
    cleanTags (extractAM [(Value.str "archetypes", Value.str "autumn")]).1 = ["autumn"] ∧
    motifToLyrics (.motifV (.str "m") [(.str "archetypes", .str "autumn")]) = autumnStanza :=
  ⟨rfl, C8_autumn_stanza (.str "m") [(.str "archetypes", .str "autumn")] rfl⟩

/-- C5 (counterexample): `-` and `-foo` do not lex to a single symbol
token: `-` becomes one NUMBER token, and `-foo` becomes a NUMBER token
`-` followed by a SYMBOL token `foo`. -/
theorem C5_counterexample :
    (tokenize "-").map (fun t => (t.type, t.value)) = [(.numberT, "-"), (.eofT, "")] ∧
    (tokenize "-foo").map (fun t => (t.type, t.value)) =
      [(.numberT, "-"), (.symbolT, "foo"), (.eofT, "")] := ⟨rfl, rfl⟩

/-- C5 (amended): the lexer never falls through to symbol mode on `-`:
whenever the character at the current position is `-`, it commits to
number mode and emits a NUMBER token holding `-` plus the (possibly
empty) following digit/dot run; hence `-` lexes to the NUMBER token `-`
and `-foo` to NUMBER `-` followed by SYMBOL `foo`. -/
theorem C5_amended :
    (∀ (rest : List Char) (line col fuel : Nat) (ts : List Token),
      tokenizeLoop (fuel + 1) ('-' :: rest) line col = some ts →
      ∃ toks, ts = Token.mk .numberT (String.mk ('-' :: (numBody rest).1)) line
                     (col + ('-' :: (numBody rest).1).length) :: toks) ∧
    tokenize "-" = [⟨.numberT, "-", 1, 2⟩, ⟨.eofT, "", 1, 2⟩] ∧
    tokenize "-foo" = [⟨.numberT, "-", 1, 2⟩, ⟨.symbolT, "foo", 1, 5⟩, ⟨.eofT, "", 1, 5⟩] := by
  refine ⟨?_, rfl, rfl⟩
  intro rest line col fuel ts h
  rcases hnb : numBody rest with ⟨body, rest'⟩
  simp only [tokenizeLoop, hnb] at h
  norm_num at h
  cases htl : tokenizeLoop fuel rest' line (col + (body.length + 1)) with
  | none => rw [htl] at h; simp at h
  | some ts' =>
      rw [htl] at h
      simp at h
      exact ⟨ts', by simp [hnb, h]⟩

/-- C5 (witness): the general head-token statement applied to the
concrete input `-7x`. -/
theorem C5_amended_witness :
    ∃ toks, tokenize "-7x" = Token.mk .numberT (String.mk ('-' :: (numBody ['7', 'x']).1)) 1
              (1 + ('-' :: (numBody ['7', 'x']).1).length) :: toks :=
  C5_amended.1 ['7', 'x'] 1 1 3 (tokenize "-7x") rfl

/-- Fuel `length + 1` always suffices for the lexer loop (each iteration
consumes at least one character), and the token list it returns is some
prefix of non-EOF tokens closed by exactly one EOF token. -/
theorem tokenizeLoop_total : ∀ (fuel : Nat) (cs : List Char) (line col : Nat),
    cs.length < fuel →
    ∃ (pre : List Token) (l c : Nat),
      tokenizeLoop fuel cs line col = some (pre ++ [⟨.eofT, "", l, c⟩]) ∧
      pre.all (fun t => ¬ t.type = .eofT) = true := by
  intro fuel
  induction fuel with
  | zero => intro cs line col h; omega
  | succ fuel ih =>
      intro cs line col h
      cases cs with
      | nil => exact ⟨[], line, col, rfl, rfl⟩
      | cons ch rest =>
          have hr : rest.length < fuel := by
            simp only [List.length_cons] at h; omega
          by_cases hw : ch.isWhitespace
          · by_cases hn : ch = '\n'
            · obtain ⟨pre, l, c, heq, hall⟩ := ih rest (line + 1) 1 hr
              exact ⟨pre, l, c, by simp [tokenizeLoop, hw, hn, heq], hall⟩
            · obtain ⟨pre, l, c, heq, hall⟩ := ih rest line (col + 1) hr
              exact ⟨pre, l, c, by simp [tokenizeLoop, hw, hn, heq], hall⟩
          · by_cases hp : ch = '('
            · obtain ⟨pre, l, c, heq, hall⟩ := ih rest line (col + 1) hr
              refine ⟨⟨.lparen, "(", line, col⟩ :: pre, l, c, ?_, ?_⟩
              · simp [tokenizeLoop, hw, hp, heq]
              · simpa using hall
            · by_cases hq : ch = ')'
              · obtain ⟨pre, l, c, heq, hall⟩ := ih rest line (col + 1) hr
                refine ⟨⟨.rparen, ")", line, col⟩ :: pre, l, c, ?_, ?_⟩
                · simp [tokenizeLoop, hw, hp, hq, heq]
                · simpa using hall
              · by_cases hs : ch = '"'
                · rcases hsb : strBody rest with ⟨body, rest'⟩
                  have hlen : rest'.length < fuel := by
                    have hle := strBody_length rest
                    rw [hsb] at hle
                    exact Nat.lt_of_le_of_lt hle hr
                  obtain ⟨pre, l, c, heq, hall⟩ :=
                    ih rest' line (col + (body.length + 1)) hlen
                  refine ⟨⟨.stringT, String.mk ('"' :: body), line,
                           col + (body.length + 1)⟩ :: pre, l, c, ?_, ?_⟩
                  · simp [tokenizeLoop, hw, hp, hq, hs, hsb, heq]
                  · simpa using hall
                · by_cases hc : ch = ';'
                  · rcases hcb : commentBody rest with ⟨body, rest'⟩
                    have hlen : rest'.length < fuel := by
                      have hle := commentBody_length rest
                      rw [hcb] at hle
                      exact Nat.lt_of_le_of_lt hle hr
                    obtain ⟨pre, l, c, heq, hall⟩ :=
                      ih rest' line (col + (body.length + 1)) hlen
                    refine ⟨⟨.commentT, String.mk (ch :: body), line,
                             col + (body.length + 1)⟩ :: pre, l, c, ?_, ?_⟩
                    · simp [tokenizeLoop, hw, hp, hq, hs, hc, hcb, heq]
                    · simpa using hall
                  · by_cases hd : ch.isDigit ∨ ch = '-'
                    · rcases hnb : numBody rest with ⟨body, rest'⟩
                      have hlen : rest'.length < fuel := by
                        have hle := numBody_length rest
                        rw [hnb] at hle
                        exact Nat.lt_of_le_of_lt hle hr
                      obtain ⟨pre, l, c, heq, hall⟩ :=
                        ih rest' line (col + (body.length + 1)) hlen
                      refine ⟨⟨.numberT, String.mk (ch :: body), line,
                               col + (body.length + 1)⟩ :: pre, l, c, ?_, ?_⟩
                      · simp [tokenizeLoop, hw, hp, hq, hs, hc, hd, hnb, heq]
                      · simpa using hall
                    · by_cases ha : ch.isAlpha ∨ ch = '-' ∨ ch = '_'
                      · rcases hyb : symBody rest with ⟨body, rest'⟩
                        have hlen : rest'.length < fuel := by
                          have hle := symBody_length rest
                          rw [hyb] at hle
                          exact Nat.lt_of_le_of_lt hle hr
                        obtain ⟨pre, l, c, heq, hall⟩ :=
                          ih rest' line (col + (body.length + 1)) hlen
                        refine ⟨⟨.symbolT, String.mk (ch :: body), line,
                                 col + (body.length + 1)⟩ :: pre, l, c, ?_, ?_⟩
                        · simp [tokenizeLoop, hw, hp, hq, hs, hc, hd, ha, hyb, heq]
                        · simpa using hall
                      · obtain ⟨pre, l, c, heq, hall⟩ := ih rest line (col + 1) hr
                        exact ⟨pre, l, c,
                          by simp [tokenizeLoop, hw, hp, hq, hs, hc, hd, ha, heq], hall⟩

/-- C9: for every input string the lexer terminates normally — the
canonical fuel is proved sufficient, so the Python `while` loop never
spins and no error is raised (tokenize is a total function here) — and
the returned token sequence consists of non-EOF tokens closed by exactly
one end-of-input token in final position. -/
theorem C9_tokenize_total (s : String) :
    ∃ (pre : List Token) (l c : Nat),
      tokenizeLoop (s.toList.length + 1) s.toList 1 1 = some (pre ++ [⟨.eofT, "", l, c⟩]) ∧
      tokenize s = pre ++ [⟨.eofT, "", l, c⟩] ∧
      pre.all (fun t => ¬ t.type = .eofT) = true := by
  obtain ⟨pre, l, c, heq, hall⟩ :=
    tokenizeLoop_total (s.toList.length + 1) s.toList 1 1 (Nat.lt_succ_self _)
  refine ⟨pre, l, c, heq, ?_, hall⟩
  show (tokenizeLoop (s.toList.length + 1) s.toList 1 1).getD [] = _
  rw [heq]
  rfl

/-- C10 (witness): the theorem applied at `(define-image pic)` over the
empty store. -/
theorem C10_define_image_symbols_witness :
    defineImage [.str "pic"] emptyStore =
      .ok (.imageV (.str "pic") [],
        { emptyStore with
            symbols := dictSet emptyStore.symbols (.str "pic") (.imageV (.str "pic") []) }) ∧
    evaluateSymbol
      { emptyStore with
          symbols := dictSet emptyStore.symbols (.str "pic") (.imageV (.str "pic") []) } "pic" =
      .imageV (.str "pic") [] :=
  ⟨C10_define_image_symbols.1 "pic" [] emptyStore [] rfl,
   C10_define_image_symbols.2.2 "pic" [] emptyStore [] rfl⟩

end Motif
